import Mathlib

/-!
Verification development for the Google Calendar bidirectional sync core of the
arcane-projects plugin.  The TypeScript source (mapping layer, recurrence
expander, remote API retry wrapper, sync engine, sync manager and the UI delete
handler) is shallowly embedded below: `dayjs` values become an explicit civil
date-time structure in a single time zone, record frontmatter becomes an
association list from field names to structured values (date-bearing strings
are represented in parsed form), asynchronous remote and vault operations
become environment functions returning `Except`, and every remote or vault call
an execution performs is collected into an explicit trace.  Numeric fields of
recurrence rules are assumed to be well-formed decimal numerals (JavaScript
`NaN` propagation from malformed numerals is not modelled; no claim depends on
it).
-/

set_option autoImplicit false

namespace ArcaneSync

/-! ### Civil dates and date-times (the `dayjs` fragment the source uses) -/

/-- A civil calendar date: year, month (1–12) and day of month (1-based). -/
structure Date where
  y : Nat
  m : Nat
  d : Nat
deriving DecidableEq, Repr

/-- A civil date-time in the single ambient time zone: a date plus
hour, minute and second. -/
structure Dt where
  date : Date
  h : Nat
  mi : Nat
  s : Nat
deriving DecidableEq, Repr

/-- Gregorian leap-year test. -/
def isLeap (y : Nat) : Bool :=
  (y % 4 == 0 && y % 100 != 0) || (y % 400 == 0)

/-- Number of days in a month (`dayjs().daysInMonth()`). -/
def daysInMonth (y m : Nat) : Nat :=
  if m == 2 then (if isLeap y then 29 else 28)
  else if m == 4 || m == 6 || m == 9 || m == 11 then 30
  else 31

/-- Days in the months of year `y` strictly before month `m`. -/
def daysBeforeMonth (y m : Nat) : Nat :=
  (List.range' 1 (m - 1)).foldl (fun acc k => acc + daysInMonth y k) 0

/-- Linear day number of a date (day 1 = 0001-01-01, proleptic Gregorian). -/
def dayNumber (dt : Date) : Nat :=
  365 * (dt.y - 1) + (dt.y - 1) / 4 - (dt.y - 1) / 100 + (dt.y - 1) / 400
    + daysBeforeMonth dt.y dt.m + dt.d

/-- Day of week with `dayjs` numbering: 0 = Sunday, …, 6 = Saturday. -/
def dayOfWeek (dt : Date) : Nat :=
  dayNumber dt % 7

/-- Total-order key of a date-time, for `isBefore`/`isAfter` comparisons. -/
def dtKey (t : Dt) : Nat :=
  dayNumber t.date * 86400 + t.h * 3600 + t.mi * 60 + t.s

/-- `a.isBefore(b)` on date-times. -/
def isBefore (a b : Dt) : Bool :=
  dtKey a < dtKey b

/-- `a.isAfter(b)` on date-times. -/
def isAfter (a b : Dt) : Bool :=
  dtKey b < dtKey a

/-- The calendar day after `dt`. -/
def nextDay (dt : Date) : Date :=
  if dt.d < daysInMonth dt.y dt.m then ⟨dt.y, dt.m, dt.d + 1⟩
  else if dt.m < 12 then ⟨dt.y, dt.m + 1, 1⟩
  else ⟨dt.y + 1, 1, 1⟩

/-- The calendar day before `dt`. -/
def prevDay (dt : Date) : Date :=
  if dt.d > 1 then ⟨dt.y, dt.m, dt.d - 1⟩
  else if dt.m > 1 then ⟨dt.y, dt.m - 1, daysInMonth dt.y (dt.m - 1)⟩
  else ⟨dt.y - 1, 12, 31⟩

/-- Add `n` days to a date. -/
def addDaysD (n : Nat) (dt : Date) : Date :=
  match n with
  | 0 => dt
  | k + 1 => addDaysD k (nextDay dt)

/-- Subtract `n` days from a date. -/
def subDaysD (n : Nat) (dt : Date) : Date :=
  match n with
  | 0 => dt
  | k + 1 => subDaysD k (prevDay dt)

/-- Add a signed number of days to a date (JavaScript day-setter semantics
use negative offsets as well). -/
def addDaysI (n : Int) (dt : Date) : Date :=
  if n < 0 then subDaysD n.natAbs dt else addDaysD n.natAbs dt

/-- `dayjs().add(n, 'month')`: advance by months, clamping the day of month. -/
def addMonthsD (n : Nat) (dt : Date) : Date :=
  let total := dt.y * 12 + (dt.m - 1) + n
  let y := total / 12
  let m := total % 12 + 1
  ⟨y, m, min dt.d (daysInMonth y m)⟩

/-- `dayjs().subtract(n, 'month')`: go back by months, clamping the day. -/
def subMonthsD (n : Nat) (dt : Date) : Date :=
  let total := dt.y * 12 + (dt.m - 1) - n
  let y := total / 12
  let m := total % 12 + 1
  ⟨y, m, min dt.d (daysInMonth y m)⟩

/-- `dayjs().add(n, 'year')`: advance by years, clamping Feb 29. -/
def addYearsD (n : Nat) (dt : Date) : Date :=
  ⟨dt.y + n, dt.m, min dt.d (daysInMonth (dt.y + n) dt.m)⟩

/-- Lift a date operation to a date-time, keeping the time of day
(`dayjs` add/subtract of whole days, weeks, months or years). -/
def onDate (f : Date → Date) (t : Dt) : Dt :=
  { t with date := f t.date }

/-- `dayjs().add(n, 'day')` on a date-time. -/
def addDays (n : Nat) (t : Dt) : Dt := onDate (addDaysD n) t

/-- `dayjs().subtract(n, 'day')` on a date-time. -/
def subDays (n : Nat) (t : Dt) : Dt := onDate (subDaysD n) t

/-- `dayjs().add(n, 'week')` on a date-time. -/
def addWeeks (n : Nat) (t : Dt) : Dt := onDate (addDaysD (7 * n)) t

/-- `dayjs().add(n, 'month')` on a date-time. -/
def addMonths (n : Nat) (t : Dt) : Dt := onDate (addMonthsD n) t

/-- `dayjs().subtract(n, 'month')` on a date-time. -/
def subMonths (n : Nat) (t : Dt) : Dt := onDate (subMonthsD n) t

/-- `dayjs().add(n, 'year')` on a date-time. -/
def addYears (n : Nat) (t : Dt) : Dt := onDate (addYearsD n) t

/-- `dayjs().add(n, 'hour')` on a date-time, carrying into the date. -/
def addHours (n : Nat) (t : Dt) : Dt :=
  { t with date := addDaysD ((t.h + n) / 24) t.date, h := (t.h + n) % 24 }

/-- `dayjs().day(target)`: move to the given day of the current Sunday-based
week, i.e. offset by `target - currentDayOfWeek` days. -/
def daySet (target : Nat) (t : Dt) : Dt :=
  onDate (addDaysI ((target : Int) - (dayOfWeek t.date : Int))) t

/-- `dayjs().date(target)`: set the day of month, with JavaScript rollover
semantics, i.e. offset by `target - currentDayOfMonth` days. -/
def dateSet (target : Nat) (t : Dt) : Dt :=
  onDate (addDaysI ((target : Int) - (t.date.d : Int))) t

/-- The `dayjs(0)` epoch instant used as the default last-sync time. -/
def epochDt : Dt := ⟨⟨1970, 1, 1⟩, 0, 0, 0⟩

/-- JavaScript `string.trim()`: strip leading and trailing whitespace
(implemented over the character list so that it evaluates inside the
kernel). -/
def jsTrimS (s : String) : String :=
  ⟨((s.data.dropWhile Char.isWhitespace).reverse.dropWhile
      Char.isWhitespace).reverse⟩

/-- JavaScript `string.substring(0, n)`. -/
def jsTake (n : Nat) (s : String) : String :=
  ⟨s.data.take n⟩

/-- Split a character list at a separator character, JavaScript
`string.split(sep)` semantics (the empty string splits to one empty
piece). -/
def splitListOn (sep : Char) : List Char → List (List Char)
  | [] => [[]]
  | c :: rest =>
    let r := splitListOn sep rest
    if c == sep then [] :: r
    else
      match r with
      | h :: t => (c :: h) :: t
      | [] => [[c]]

/-- JavaScript `string.split(sep)` for a one-character separator. -/
def jsSplit (sep : Char) (s : String) : List String :=
  (splitListOn sep s.data).map (fun l => ⟨l⟩)

/-- Zero-pad a numeral to two digits. -/
def pad2 (n : Nat) : String :=
  if n < 10 then "0" ++ toString n else toString n

/-- Zero-pad a numeral to four digits. -/
def pad4 (n : Nat) : String :=
  if n < 10 then "000" ++ toString n
  else if n < 100 then "00" ++ toString n
  else if n < 1000 then "0" ++ toString n
  else toString n

/-- `format('YYYY-MM-DD')`. -/
def formatYMD (dt : Date) : String :=
  pad4 dt.y ++ "-" ++ pad2 dt.m ++ "-" ++ pad2 dt.d

/-- `format('HH:mm')`. -/
def formatHM (t : Dt) : String :=
  pad2 t.h ++ ":" ++ pad2 t.mi

/-! ### Record values and frontmatter

Record frontmatter is a string-keyed map.  Values that the source treats as
date strings (`safeDateParse`, `dayjs(...)`) are stored in parsed form: a
`DateVal` is the content of either a plain `YYYY-MM-DD` string or a full ISO
date-time string.  Clock-time strings (`HH:mm`) are stored as an
hour-minute pair.  Any other string is an opaque `.str`. -/

/-- The parsed content of a date-bearing string value. -/
inductive DateVal where
  /-- A plain calendar-date string, `YYYY-MM-DD`. -/
  | dateOnly (d : Date)
  /-- A full ISO date-time string. -/
  | dateTime (t : Dt)
deriving DecidableEq, Repr

/-- A frontmatter value. -/
inductive Value where
  /-- An opaque (non-date) string. -/
  | str (s : String)
  /-- A date-bearing string in parsed form. -/
  | dateStr (d : DateVal)
  /-- A clock-time string `HH:mm` in parsed form (hour, minute). -/
  | timeStr (h mi : Nat)
  /-- A boolean. -/
  | b (v : Bool)
  /-- A list of strings. -/
  | list (l : List String)
deriving DecidableEq, Repr

/-- JavaScript truthiness of a frontmatter value. -/
def Value.truthy : Value → Bool
  | .str s => s ≠ ""
  | .dateStr _ => true
  | .timeStr _ _ => true
  | .b v => v
  | .list _ => true

/-- JavaScript truthiness of a possibly-absent value. -/
def otruthy (v : Option Value) : Bool :=
  match v with
  | some v => v.truthy
  | none => false

/-- Field map: insertion-ordered association list with JavaScript object
assignment semantics (overwrite in place if the key exists, else append). -/
def objSet (l : List (String × Value)) (k : String) (v : Value) :
    List (String × Value) :=
  match l with
  | [] => [(k, v)]
  | (k', v') :: rest =>
    if k' = k then (k, v) :: rest else (k', v') :: objSet rest k v

/-- Property lookup on a field map. -/
def objGet (l : List (String × Value)) (k : String) : Option Value :=
  match l with
  | [] => none
  | (k', v') :: rest => if k' = k then some v' else objGet rest k

/-- A local record: a stable identifier (the note path) and its field map. -/
structure DataRecord where
  id : String
  values : List (String × Value)
deriving DecidableEq, Repr

/-- Value of a field of a record. -/
def DataRecord.get (r : DataRecord) (k : String) : Option Value :=
  objGet r.values k

/-- A data frame: the current snapshot of all records. -/
structure DataFrame where
  records : List DataRecord
deriving Repr

/-! ### Remote events -/

/-- One boundary of a remote event: an optional date-time and an optional
plain date, mirroring the `{dateTime?, date?}` shape of the source. -/
structure EventBoundary where
  dateTime : Option Dt
  date : Option Date
deriving DecidableEq, Repr

/-- A remote calendar event as consumed by the mapper and the sync engine. -/
structure GEvent where
  id : String
  summary : String
  description : Option String := none
  location : Option String := none
  start : EventBoundary
  stop : EventBoundary
  recurrence : Option (List String) := none
  recurringEventId : Option String := none
  updated : Option Dt := none
deriving DecidableEq, Repr

/-- The partial remote event produced by `mapRecordToGoogleEvent`: a summary
value (the unchecked `as string` cast of the source is kept as a raw value),
optional description and location, and the start/stop boundaries once they
have been resolved. -/
structure EventPatch where
  summary : Value
  description : Option Value := none
  location : Option Value := none
  start : Option EventBoundary := none
  stop : Option EventBoundary := none
deriving DecidableEq, Repr

/-! ### The mapping layer (`mapping.ts`) -/

/-- Embeds `safeDateParse`: a missing value or a value that is not a
date-bearing string raises an error; otherwise the parsed `dayjs` value — a
plain `YYYY-MM-DD` string parses to midnight of that date. -/
def safeDateParse (v : Option Value) (fieldName : String) : Except String Dt :=
  match v with
  | none => .error (fieldName ++ " is required but not provided")
  | some (.dateStr (.dateOnly d)) => .ok ⟨d, 0, 0, 0⟩
  | some (.dateStr (.dateTime t)) => .ok t
  | some _ => .error ("Invalid date format for " ++ fieldName)

/-- The date-bearing string value re-emitted by `toISOString()`. -/
def toISOVal (t : Dt) : Value :=
  .dateStr (.dateTime t)

/-- The boundary's `dateTime || date` fallback read as a (date-bearing)
string value. -/
def boundaryVal (b : EventBoundary) : Option Value :=
  match b.dateTime with
  | some t => some (toISOVal t)
  | none => b.date.map (fun d => .dateStr (.dateOnly d))

/-- The first four frontmatter entries built by `mapGoogleEventToFrontmatter`:
base event id, sync flag, last-sync stamp and the required tags. -/
def baseFrontmatter (event : GEvent) (now : Dt) : List (String × Value) :=
  [("google-event-id", .str (event.recurringEventId.getD event.id)),
   ("google-calendar-sync", .b true),
   ("google-calendar-last-sync", toISOVal now),
   ("tags", .list ["arcane-default", "calendar-event"])]

/-- The conditional description, location and recurrence entries of
`mapGoogleEventToFrontmatter`, assigned in source order. -/
def decorateFrontmatter (event : GEvent) (fm : List (String × Value)) :
    List (String × Value) :=
  let fm := match event.description with
    | some d => objSet fm "description" (.str d)
    | none => fm
  let fm := match event.location with
    | some l => objSet fm "location" (.str l)
    | none => fm
  let fm := match event.recurrence with
    | some rules =>
      if rules.length > 0 then
        objSet (objSet fm "google-recurrence" (.list rules))
          "google-is-recurring" (.b true)
      else fm
    | none => fm
  match event.recurringEventId with
  | some rid =>
    objSet (objSet fm "google-recurring-event-id" (.str rid))
      "google-is-recurring" (.b true)
  | none => fm

/-- Embeds `mapGoogleEventToFrontmatter`.  The ambient `dayjs()` clock is the
explicit `now` argument (used for the `google-calendar-last-sync` stamp).
The produced frontmatter object is built key by key in source order with
JavaScript assignment semantics. -/
def mapGoogleEventToFrontmatter (event : GEvent) (now : Dt) :
    Except String (List (String × Value)) := do
  let startDateTime := boundaryVal event.start
  let endDateTime := boundaryVal event.stop
  let isAllDay := event.start.dateTime.isNone
  let fm := decorateFrontmatter event (baseFrontmatter event now)
  if isAllDay then
    let startT ← safeDateParse startDateTime "start date"
    return objSet fm "due-date" (.dateStr (.dateOnly startT.date))
  else
    let startT ← safeDateParse startDateTime "start date"
    let endT ← safeDateParse endDateTime "end date"
    let fm := objSet fm "start-time" (.timeStr startT.h startT.mi)
    let fm := objSet fm "end-time" (.timeStr endT.h endT.mi)
    let fm := objSet fm "due-date" (.dateStr (.dateOnly startT.date))
    let fm := objSet fm "start-date" (toISOVal startT)
    return objSet fm "end-date" (toISOVal endT)

/-- Embeds `mapRecordToGoogleEvent`: resolves the event timing through the
four mutually exclusive cases of the source and fails with a validation
error when no timing information is derivable. -/
def mapRecordToGoogleEvent (record : DataRecord) : Except String EventPatch := do
  let values := record.values
  let summary : Value :=
    match objGet values "title" with
    | some v => if v.truthy then v else
        match objGet values "name" with
        | some w => if w.truthy then w else .str "Untitled Event"
        | none => .str "Untitled Event"
    | none =>
        match objGet values "name" with
        | some w => if w.truthy then w else .str "Untitled Event"
        | none => .str "Untitled Event"
  let description := (objGet values "description").filter Value.truthy
  let location := (objGet values "location").filter Value.truthy
  let startDate := objGet values "start-date"
  let endDate := objGet values "end-date"
  let dueDate :=
    match objGet values "due-date" with
    | some v => if v.truthy then some v else objGet values "due"
    | none => objGet values "due"
  let startTime := objGet values "start-time"
  let endTime := objGet values "end-time"
  let base : EventPatch := ⟨summary, description, location, none, none⟩
  if otruthy startDate && otruthy endDate then
    let start ← safeDateParse startDate "start-date"
    let stop ← safeDateParse endDate "end-date"
    if start.h != 0 || start.mi != 0 || stop.h != 0 || stop.mi != 0 then
      return { base with
        start := some ⟨some start, none⟩, stop := some ⟨some stop, none⟩ }
    else
      return { base with
        start := some ⟨none, some start.date⟩,
        stop := some ⟨none, some (addDaysD 1 stop.date)⟩ }
  else if otruthy dueDate && otruthy startTime && otruthy endTime then
    let dueDay ← safeDateParse dueDate "due-date"
    match startTime, endTime with
    | some (.timeStr sh sm), some (.timeStr eh em) =>
      if sh > 23 || sm > 59 || eh > 23 || em > 59 then
        .error "Invalid time values in start-time or end-time"
      else
        let start : Dt := ⟨dueDay.date, sh, sm, 0⟩
        let stop : Dt := ⟨dueDay.date, eh, em, 0⟩
        return { base with
          start := some ⟨some start, none⟩, stop := some ⟨some stop, none⟩ }
    | _, _ => .error "Invalid time format. Expected HH:mm format"
  else if otruthy dueDate then
    let due ← safeDateParse dueDate "due-date"
    if due.h != 0 || due.mi != 0 then
      return { base with
        start := some ⟨some due, none⟩,
        stop := some ⟨some (addHours 1 due), none⟩ }
    else
      return { base with
        start := some ⟨none, some due.date⟩,
        stop := some ⟨none, some (addDaysD 1 due.date)⟩ }
  else
    .error "No valid date information found in record"

/-- Embeds `isCalendarEvent`: sync not explicitly disabled, and either a
start/end date pair or a due date present. -/
def isCalendarEvent (record : DataRecord) : Bool :=
  if record.get "google-calendar-sync" == some (.b false) then false
  else
    let hasStartEnd :=
      otruthy (record.get "start-date") && otruthy (record.get "end-date")
    let hasDue :=
      otruthy (record.get "due-date") || otruthy (record.get "due")
    hasStartEnd || hasDue

/-- Embeds `shouldSyncToGoogle`: a calendar event whose sync flag is `true`
or absent. -/
def shouldSyncToGoogle (record : DataRecord) : Bool :=
  if ¬ isCalendarEvent record then false
  else
    match record.get "google-calendar-sync" with
    | some (.b true) => true
    | none => true
    | some _ => false

/-- Embeds `isRecordModified`: true when the record has never been synced
(no last-sync stamp), otherwise true exactly when there is no stored
Google event id. -/
def isRecordModified (record : DataRecord) : Bool :=
  if ¬ otruthy (record.get "google-calendar-last-sync") then true
  else ¬ otruthy (record.get "google-event-id")

/-- The sync metadata extracted from a record (`extractGoogleCalendarMetadata`);
the unchecked `as string` casts of the source are modelled by reading only
string-valued fields. -/
structure GCalMetadata where
  eventId : Option String
  calendarId : Option String
  lastSync : Option Value
  syncEnabled : Bool
deriving Repr

/-- Read a field as a string, mirroring the source's `as string` cast on
fields that are in practice strings. -/
def getStr (r : DataRecord) (k : String) : Option String :=
  match r.get k with
  | some (.str s) => some s
  | _ => none

/-- Embeds `extractGoogleCalendarMetadata`. -/
def extractGoogleCalendarMetadata (record : DataRecord) : GCalMetadata :=
  { eventId := getStr record "google-event-id"
    calendarId := getStr record "google-calendar-id"
    lastSync := record.get "google-calendar-last-sync"
    syncEnabled := record.get "google-calendar-sync" != some (.b false) }

/-! ### The recurrence expander (`parseRecurrenceRule`) -/

/-- JavaScript `parseInt` on a rule numeral: the leading decimal digits, or
`none` for `NaN` when there are none. -/
def jsParseInt (s : String) : Option Nat :=
  let digits := s.toList.takeWhile Char.isDigit
  if digits.isEmpty then none
  else some (digits.foldl (fun acc c => acc * 10 + (c.toNat - 48)) 0)

/-- String-keyed association map with JavaScript object assignment
semantics, used for the parsed `key=value` pairs of a rule. -/
def smapSet (l : List (String × String)) (k v : String) :
    List (String × String) :=
  match l with
  | [] => [(k, v)]
  | (k', v') :: rest =>
    if k' = k then (k, v) :: rest else (k', v') :: smapSet rest k v

/-- Lookup in the parsed rule map. -/
def smapGet (l : List (String × String)) (k : String) : Option String :=
  match l with
  | [] => none
  | (k', v') :: rest => if k' = k then some v' else smapGet rest k

/-- Restricted `dayjs(string)` reader for `UNTIL` values: an extended-format
calendar date parses to midnight of that date; anything else is an invalid
date.  A `dayjs` Invalid Date compares `isAfter` false against everything, so
an unparsable `UNTIL` is modelled as `none` (same observable behaviour as an
absent `UNTIL`). -/
def parseDtString (s : String) : Option Dt :=
  match (jsSplit '-' s).map jsParseInt with
  | [some y, some m, some d] => some ⟨⟨y, m, d⟩, 0, 0, 0⟩
  | _ => none

/-- The parsed components of a recurrence rule together with the expansion
window, as set up at the top of `parseRecurrenceRule`. -/
structure ExpandCtx where
  freq : Option String
  interval : Nat
  count : Option Nat
  untilDate : Option Dt
  byDay : List String
  byMonthDay : List Nat
  byMonth : List Nat
  maxOccurrences : Nat
  viewStart : Dt
  viewEnd : Dt
deriving Repr

/-- Embeds `getNextWeeklyOccurrence`: jump to the next listed weekday, or to
the first listed weekday after `interval` weeks. -/
def getNextWeeklyOccurrence (current : Dt) (interval : Nat)
    (byDay : List String) : Dt :=
  let dayMap : String → Option Nat := fun d =>
    match d with
    | "SU" => some 0 | "MO" => some 1 | "TU" => some 2 | "WE" => some 3
    | "TH" => some 4 | "FR" => some 5 | "SA" => some 6 | _ => none
  let targetDays := (byDay.filterMap dayMap).insertionSort (· ≤ ·)
  if targetDays.isEmpty then addWeeks interval current
  else
    let currentDay := dayOfWeek current.date
    match targetDays.find? (fun day => day > currentDay) with
    | some nd => daySet nd current
    | none =>
      let weeksToAdd := interval
      match targetDays.head? with
      | some firstTargetDay => daySet firstTargetDay (addWeeks weeksToAdd current)
      | none => addWeeks weeksToAdd current

/-- Embeds `getNextMonthlyOccurrence`: jump to the next listed day of month
when it fits in the current month, else to the first listed day (clamped) of
the month `interval` months ahead. -/
def getNextMonthlyOccurrence (current : Dt) (interval : Nat)
    (byMonthDay : List Nat) : Dt :=
  let currentDay := current.date.d
  let nextDay? := byMonthDay.find? (fun day => day > currentDay)
  let dim := daysInMonth current.date.y current.date.m
  match nextDay? with
  | some nd =>
    if nd ≤ dim then dateSet nd current
    else
      let nextMonth := addMonths interval current
      match byMonthDay.head? with
      | some firstDay =>
        dateSet (min firstDay (daysInMonth nextMonth.date.y nextMonth.date.m)) nextMonth
      | none => nextMonth
  | none =>
    let nextMonth := addMonths interval current
    match byMonthDay.head? with
    | some firstDay =>
      dateSet (min firstDay (daysInMonth nextMonth.date.y nextMonth.date.m)) nextMonth
    | none => nextMonth

/-- One step of the `switch (freq)` of the expansion loop.  The `default`
branch of the source only logs and leaves `current` unchanged (its `break`
exits the `switch`, not the `while` loop). -/
def stepFreq (ctx : ExpandCtx) (current : Dt) : Dt :=
  match ctx.freq with
  | some "DAILY" => addDays ctx.interval current
  | some "WEEKLY" =>
    if ctx.byDay.length > 0 then
      getNextWeeklyOccurrence current ctx.interval ctx.byDay
    else addWeeks ctx.interval current
  | some "MONTHLY" =>
    if ctx.byMonthDay.length > 0 then
      getNextMonthlyOccurrence current ctx.interval ctx.byMonthDay
    else addMonths ctx.interval current
  | some "YEARLY" => addYears ctx.interval current
  | _ => current

/-- The window test applied to each candidate occurrence:
`isAfter(viewStart - 1 day)` and `isBefore(viewEnd + 1 day)`. -/
def inWindow (viewStart viewEnd d : Dt) : Bool :=
  isAfter d (subDays 1 viewStart) && isBefore d (addDays 1 viewEnd)

/-- The `BYMONTH` filter: a candidate passes unless `BYMONTH` is non-empty
and does not list its month (the source compares `current.month() + 1`,
which is the 1-based month). -/
def byMonthOk (byMonth : List Nat) (d : Dt) : Bool :=
  !(byMonth.length > 0 && !(byMonth.contains d.date.m))

/-- The `while` loop of `parseRecurrenceRule` in fuel-indexed form (the fuel
is kept exactly equal to the remaining occurrence slots
`maxOccurrences - occurrenceCount`, which strictly decrease each iteration,
so that the structural recursion coincides with the source's `while` loop):
check the loop condition and the `UNTIL`/`COUNT` termination guards against
the pre-step date, advance by the frequency step, filter by `BYMONTH` and
the window, and count one occurrence slot per iteration whether or not the
candidate was emitted. -/
def expandLoopF (ctx : ExpandCtx) : Nat → Dt → Nat → List Dt
  | 0, _, _ => []
  | fuel + 1, current, occurrenceCount =>
    if occurrenceCount < ctx.maxOccurrences then
      if ¬ (isBefore current (addYears 1 ctx.viewEnd)) then []
      else if (match ctx.untilDate with
               | some u => isAfter current u
               | none => false) then []
      else if (match ctx.count with
               | some c => c ≠ 0 && occurrenceCount ≥ c
               | none => false) then []
      else
        let next := stepFreq ctx current
        let rest := expandLoopF ctx fuel next (occurrenceCount + 1)
        if byMonthOk ctx.byMonth next && inWindow ctx.viewStart ctx.viewEnd next
        then next :: rest else rest
    else []

/-- The `while` loop of `parseRecurrenceRule`, entered with the current
occurrence count. -/
def expandLoop (ctx : ExpandCtx) (current : Dt) (occurrenceCount : Nat) :
    List Dt :=
  expandLoopF ctx (ctx.maxOccurrences - occurrenceCount) current occurrenceCount

/-- The parsed rule components of a rule string, as computed at the top of
`parseRecurrenceRule` (semicolon-separated `key=value` pairs; `INTERVAL`
defaults to 1; `COUNT` only when present; a falsy `COUNT` of 0 — and a `NaN`
one — later falls back to the 365 safety bound). -/
def ruleCtx (rrule : String) (viewStart viewEnd : Dt) : ExpandCtx :=
  let parts := jsSplit ';' rrule
  let ruleMap := parts.foldl (fun acc part =>
    match jsSplit '=' part with
    | key :: value :: _ =>
      if key ≠ "" && value ≠ "" then smapSet acc key value else acc
    | _ => acc) []
  let freq := smapGet ruleMap "FREQ"
  let interval := (jsParseInt ((smapGet ruleMap "INTERVAL").getD "1")).getD 1
  let count := (smapGet ruleMap "COUNT").map (fun s => (jsParseInt s).getD 0)
  let untilDate := (smapGet ruleMap "UNTIL").bind parseDtString
  let byDay := match smapGet ruleMap "BYDAY" with
    | some s => jsSplit ',' s
    | none => []
  let byMonthDay := match smapGet ruleMap "BYMONTHDAY" with
    | some s => (jsSplit ',' s).filterMap jsParseInt
    | none => []
  let byMonth := match smapGet ruleMap "BYMONTH" with
    | some s => (jsSplit ',' s).filterMap jsParseInt
    | none => []
  let maxOccurrences := match count with
    | some c => if c = 0 then 365 else c
    | none => 365
  { freq := freq, interval := interval, count := count,
    untilDate := untilDate, byDay := byDay, byMonthDay := byMonthDay,
    byMonth := byMonth, maxOccurrences := maxOccurrences,
    viewStart := viewStart, viewEnd := viewEnd }

/-- Embeds `parseRecurrenceRule`: always emits the anchor date first when it
lies inside the padded window (unfiltered), consumes one occurrence slot for
it, then runs the expansion loop. -/
def parseRecurrenceRule (rrule : String) (startDate viewStart viewEnd : Dt) :
    List Dt :=
  let ctx := ruleCtx rrule viewStart viewEnd
  let occ0 :=
    if inWindow viewStart viewEnd startDate then [startDate] else []
  occ0 ++ expandLoop ctx startDate 1

/-! ### Error taxonomy (`types.ts`) -/

/-- The `GoogleCalendarErrorType` enumeration. -/
inductive GCErrType where
  | AUTHENTICATION_FAILED
  | AUTHORIZATION_REQUIRED
  | TOKEN_REFRESH_FAILED
  | API_QUOTA_EXCEEDED
  | NETWORK_ERROR
  | INVALID_CONFIGURATION
  | SYNC_IN_PROGRESS
  | CALENDAR_NOT_FOUND
  | EVENT_NOT_FOUND
  | VALIDATION_ERROR
  | UNKNOWN_ERROR
deriving DecidableEq, Repr

/-- A normalized `GoogleCalendarError`: a taxonomy type and a message. -/
structure GCError where
  type : GCErrType
  message : String
deriving DecidableEq, Repr

/-! ### The remote client retry wrapper (`api.ts`) -/

/-- The `code` field of a raw JavaScript error: numeric HTTP codes or
string connectivity codes such as `ENOTFOUND`. -/
inductive JsCode where
  | num (n : Nat)
  | str (s : String)
deriving DecidableEq, Repr

/-- A raw error thrown by the googleapis client, with the fields the
classifiers of the source inspect. -/
structure JsErr where
  code : Option JsCode := none
  status : Option Nat := none
  responseStatus : Option Nat := none
  message : Option String := none
deriving DecidableEq, Repr

/-- Character-list prefix match for the substring search below. -/
def matchesAt : List Char → List Char → Bool
  | [], _ => true
  | _ :: _, [] => false
  | c :: cs, h :: hs => c == h && matchesAt cs hs

/-- Character-list substring search. -/
def hasSub (needle hay : List Char) : Bool :=
  match hay with
  | [] => needle.isEmpty
  | _ :: rest => matchesAt needle hay || hasSub needle rest

/-- JavaScript `string.includes(needle)`. -/
def strIncludes (hay needle : String) : Bool :=
  hasSub needle.toList hay.toList

/-- JavaScript `string.toLowerCase()` (ASCII fragment). -/
def strLower (s : String) : String :=
  ⟨s.data.map Char.toLower⟩

/-- JavaScript truthiness of an optional message string. -/
def msgTruthy (m : Option String) : Bool :=
  match m with
  | some s => s ≠ ""
  | none => false

/-- Embeds `isAuthenticationError`: any of the three 401 fields, or a
truthy message containing `401`. -/
def isAuthenticationError (e : JsErr) : Bool :=
  e.code == some (.num 401) || e.status == some 401 ||
    e.responseStatus == some 401 ||
    (msgTruthy e.message && strIncludes (e.message.getD "") "401")

/-- Embeds `isQuotaExceededError`: a 403 code or status, or a truthy message
containing `quota` case-insensitively. -/
def isQuotaExceededError (e : JsErr) : Bool :=
  e.code == some (.num 403) || e.status == some 403 ||
    (msgTruthy e.message && strIncludes (strLower (e.message.getD "")) "quota")

/-- Embeds `isNetworkError`: a connectivity error code, or a truthy message
containing `network` case-insensitively. -/
def isNetworkError (e : JsErr) : Bool :=
  e.code == some (.str "ENOTFOUND") || e.code == some (.str "ECONNREFUSED") ||
    e.code == some (.str "ETIMEDOUT") ||
    (msgTruthy e.message && strIncludes (strLower (e.message.getD "")) "network")

/-- `GoogleCalendarError.fromError` on a raw error: wrap as `UNKNOWN_ERROR`
carrying the original message. -/
def gcalFromJsError (e : JsErr) : GCError :=
  ⟨.UNKNOWN_ERROR, e.message.getD ""⟩

/-- The environment of one wrapped API operation: the outcome of each attempt
of the underlying call (indexed by attempt number), the outcome of a token
refresh, and whether an `onTokenRefresh` callback is registered. -/
structure RetryEnv (α : Type) where
  call : Nat → Except JsErr α
  refresh : Except JsErr String
  callbackRegistered : Bool

/-- The observable outcome of `executeWithRetry`: the final result, how many
times the underlying call was attempted, how many token refreshes were
attempted, and the access tokens passed to the registered callback. -/
structure RetryTrace (α : Type) where
  result : Except GCError α
  attempts : Nat
  refreshes : Nat
  callbackCalls : List String
deriving Repr

/-- Embeds `executeWithRetry`: one attempt; on a 401 classification one
refresh, callback notification and exactly one retry whose own failure (of
any kind) is caught by the refresh handler and surfaced as the
authentication-failed `TOKEN_REFRESH_FAILED` error; non-401 failures are
normalized to quota, network or generic errors without retry. -/
def executeWithRetry {α : Type} (env : RetryEnv α) : RetryTrace α :=
  match env.call 0 with
  | .ok a => ⟨.ok a, 1, 0, []⟩
  | .error e =>
    if isAuthenticationError e then
      match env.refresh with
      | .ok newAccessToken =>
        let cbs := if env.callbackRegistered then [newAccessToken] else []
        match env.call 1 with
        | .ok a => ⟨.ok a, 2, 1, cbs⟩
        | .error _ =>
          ⟨.error ⟨.TOKEN_REFRESH_FAILED,
            "Authentication failed. Please re-authenticate with Google Calendar."⟩,
           2, 1, cbs⟩
      | .error _ =>
        ⟨.error ⟨.TOKEN_REFRESH_FAILED,
          "Authentication failed. Please re-authenticate with Google Calendar."⟩,
         1, 1, []⟩
    else if isQuotaExceededError e then
      ⟨.error ⟨.API_QUOTA_EXCEEDED,
        "Google Calendar API quota exceeded. Please try again later."⟩, 1, 0, []⟩
    else if isNetworkError e then
      ⟨.error ⟨.NETWORK_ERROR,
        "Network error occurred. Please check your internet connection."⟩, 1, 0, []⟩
    else ⟨.error (gcalFromJsError e), 1, 0, []⟩

/-! ### The sync engine (`syncEngine.ts`)

The engine's asynchronous calls to the remote API and the vault are modelled
by an environment of outcome functions and an explicit trace of the calls an
execution performs.  The `dayjs()` clock is the environment's `now`. -/

/-- One remote-API or vault call performed by the engine or the delete
handler. -/
inductive Call where
  | apiGetEvents (calendarId : String) (timeMin timeMax : Dt)
  | apiCreateEvent (calendarId : String) (event : EventPatch)
  | apiUpdateEvent (calendarId : String) (eventId : String) (event : EventPatch)
  | apiDeleteEvent (calendarId : String) (eventId : String)
  | dataUpdateRecord (record : DataRecord)
  | dataCreateNote (record : DataRecord)
  | dataDeleteRecord (id : String)
deriving DecidableEq, Repr

/-- Outcomes of the engine's asynchronous collaborators. -/
structure SyncEnv where
  now : Dt
  getEventsR : Except GCError (List GEvent)
  createEventR : EventPatch → Except GCError String
  updateEventR : String → Except GCError Unit
  deleteEventR : String → String → Except GCError Unit
  updateRecordR : DataRecord → Except GCError Unit
  createNoteR : DataRecord → Except GCError Unit

/-- The mutable fields of `GoogleCalendarSyncEngine` (plus the
`config.lastSync` stamp the engine writes): the in-progress guard, the
last-sync time, the conflict count and the in-memory event mappings
(record id to event id). -/
structure EngineState where
  syncInProgress : Bool := false
  lastSync : Option Dt := none
  conflicts : Nat := 0
  mappings : List (String × String) := []
deriving DecidableEq, Repr

/-- `Map.set` on the in-memory event mappings. -/
def mappingsSet (l : List (String × String)) (k v : String) :
    List (String × String) :=
  smapSet l k v

/-- `Map.delete` on the in-memory event mappings. -/
def mappingsDelete (l : List (String × String)) (k : String) :
    List (String × String) :=
  l.filter (fun p => p.1 ≠ k)

/-- The `SyncStatus` returned by `getSyncStatus`. -/
structure SyncStatus where
  isActive : Bool
  lastSync : Option Dt
  pendingChanges : Nat
deriving DecidableEq, Repr

/-- Embeds `getSyncStatus`. -/
def getSyncStatus (st : EngineState) : SyncStatus :=
  ⟨st.syncInProgress, st.lastSync, st.conflicts⟩

/-- The record written back by `updateRecordSyncMetadata`: the record with
the Google event id, calendar id, sync flag and fresh last-sync stamp. -/
def recordWithSyncMetadata (record : DataRecord) (eventId calendarId : String)
    (now : Dt) : DataRecord :=
  let v1 := objSet record.values "google-event-id" (.str eventId)
  let v2 := objSet v1 "google-calendar-id" (.str calendarId)
  let v3 := objSet v2 "google-calendar-sync" (.b true)
  let v4 := objSet v3 "google-calendar-last-sync" (toISOVal now)
  { record with values := v4 }

/-- Result of processing one record in the Local→Remote pass: occurrences
counted, calls performed, updated mappings. -/
structure StepOut where
  count : Nat
  trace : List Call
  mappings : List (String × String)
deriving Repr

/-- The create-new-event branch of the Local→Remote pass. -/
def createBranch (env : SyncEnv) (calendarId : String)
    (mappings : List (String × String)) (record : DataRecord) : StepOut :=
  match mapRecordToGoogleEvent record with
  | .error _ => ⟨0, [], mappings⟩
  | .ok newEvent =>
    match env.createEventR newEvent with
    | .error _ => ⟨0, [.apiCreateEvent calendarId newEvent], mappings⟩
    | .ok createdId =>
      let rec' := recordWithSyncMetadata record createdId calendarId env.now
      match env.updateRecordR rec' with
      | .error _ =>
        ⟨0, [.apiCreateEvent calendarId newEvent, .dataUpdateRecord rec'], mappings⟩
      | .ok _ =>
        ⟨1, [.apiCreateEvent calendarId newEvent, .dataUpdateRecord rec'],
         mappingsSet mappings record.id createdId⟩

/-- The update-existing-event branch of the Local→Remote pass (only entered
when `isRecordModified` holds). -/
def updateBranch (env : SyncEnv) (calendarId eventId : String)
    (mappings : List (String × String)) (record : DataRecord) : StepOut :=
  match mapRecordToGoogleEvent record with
  | .error _ => ⟨0, [], mappings⟩
  | .ok updatedEvent =>
    match env.updateEventR eventId with
    | .error _ => ⟨0, [.apiUpdateEvent calendarId eventId updatedEvent], mappings⟩
    | .ok _ =>
      let rec' := recordWithSyncMetadata record eventId calendarId env.now
      match env.updateRecordR rec' with
      | .error _ =>
        ⟨0, [.apiUpdateEvent calendarId eventId updatedEvent,
             .dataUpdateRecord rec'], mappings⟩
      | .ok _ =>
        ⟨1, [.apiUpdateEvent calendarId eventId updatedEvent,
             .dataUpdateRecord rec'], mappings⟩

/-- Processing of one record by the Local→Remote pass: skip non-synced
records; for a record with a truthy stored event id update only when
`isRecordModified` holds; otherwise create.  Per-record errors are caught by
the source's `try`/`catch` and only suppress the count. -/
def syncRecordToGoogle (env : SyncEnv) (calendarId : String)
    (mappings : List (String × String)) (record : DataRecord) : StepOut :=
  if ¬ shouldSyncToGoogle record then ⟨0, [], mappings⟩
  else
    let metadata := extractGoogleCalendarMetadata record
    match metadata.eventId with
    | some eventId =>
      if eventId ≠ "" then
        if isRecordModified record then
          updateBranch env calendarId eventId mappings record
        else ⟨0, [], mappings⟩
      else createBranch env calendarId mappings record
    | none => createBranch env calendarId mappings record

/-- Embeds `syncObsidianToGoogle`: fold the per-record step over the
eligible records, accumulating count, trace and mappings. -/
def syncObsidianToGoogle (env : SyncEnv) (calendarId : String)
    (records : List DataRecord) (mappings₀ : List (String × String)) : StepOut :=
  records.foldl (fun acc record =>
    let out := syncRecordToGoogle env calendarId acc.mappings record
    ⟨acc.count + out.count, acc.trace ++ out.trace, out.mappings⟩)
    ⟨0, [], mappings₀⟩

/-- Association map from base event id to event, in insertion order. -/
def emapSet (l : List (String × GEvent)) (k : String) (v : GEvent) :
    List (String × GEvent) :=
  match l with
  | [] => [(k, v)]
  | (k', v') :: rest =>
    if k' = k then (k, v) :: rest else (k', v') :: emapSet rest k v

/-- Lookup in an event map. -/
def emapGet (l : List (String × GEvent)) (k : String) : Option GEvent :=
  match l with
  | [] => none
  | (k', v') :: rest => if k' = k then some v' else emapGet rest k

/-- Association map from a string key to a record. -/
def rmapSet (l : List (String × DataRecord)) (k : String) (v : DataRecord) :
    List (String × DataRecord) :=
  match l with
  | [] => [(k, v)]
  | (k', v') :: rest =>
    if k' = k then (k, v) :: rest else (k', v') :: rmapSet rest k v

/-- Lookup in a record map. -/
def rmapGet (l : List (String × DataRecord)) (k : String) : Option DataRecord :=
  match l with
  | [] => none
  | (k', v') :: rest => if k' = k then some v' else rmapGet rest k

/-- Grouping of the fetched events by base event id, preferring — among
duplicates — the copy that carries a `recurrence` field (the master): the
source tests `event.recurrence && !existing.recurrence`, i.e. presence of
the field, not non-emptiness. -/
def eventsByBaseId (googleEvents : List GEvent) : List (String × GEvent) :=
  googleEvents.foldl (fun acc event =>
    let baseId := event.recurringEventId.getD event.id
    match emapGet acc baseId with
    | none => emapSet acc baseId event
    | some existing =>
      if event.recurrence.isSome && existing.recurrence.isNone then
        emapSet acc baseId event
      else acc) []

/-- The existing-record lookup by stored (truthy) Google event id. -/
def recordsByEventId (existingRecords : List DataRecord) :
    List (String × DataRecord) :=
  existingRecords.foldl (fun acc record =>
    match getStr record "google-event-id" with
    | some eventId => if eventId ≠ "" then rmapSet acc eventId record else acc
    | none => acc) []

/-- The existing-record lookup by note name (record id). -/
def recordsByNoteName (existingRecords : List DataRecord) :
    List (String × DataRecord) :=
  existingRecords.foldl (fun acc record => rmapSet acc record.id record) []

/-- Filename sanitization: replace the characters illegal in vault paths
(`\\ / : * ? " < > |`) with a dash. -/
def sanitizeTitle (s : String) : String :=
  ⟨s.data.map (fun c =>
    if c == '\\' || c == '/' || c == ':' || c == '*' || c == '?' ||
       c == '"' || c == '<' || c == '>' || c == '|' then '-' else c)⟩

/-- `dayjs(event.start.dateTime || event.start.date)` — the event's start
instant; an absent boundary falls back to the current time (`dayjs` of
`undefined`). -/
def eventStartDt (event : GEvent) (now : Dt) : Dt :=
  match event.start.dateTime with
  | some t => t
  | none =>
    match event.start.date with
    | some d => ⟨d, 0, 0, 0⟩
    | none => now

/-- The date-based duplicate-guard note name computed in
`syncGoogleToObsidian` before deciding whether to create a note:
sanitized title, event date and short event id. -/
def guardNoteName (googleEvent : GEvent) (now : Dt) : String :=
  let noteTitle := if googleEvent.summary ≠ "" then googleEvent.summary
                   else "Untitled Event"
  let sanitizedTitle := sanitizeTitle noteTitle
  let eventDate := formatYMD (eventStartDt googleEvent now).date
  let eventIdShort := jsTake 8 googleEvent.id
  sanitizedTitle ++ " - " ++ eventDate ++ " - " ++ eventIdShort ++ ".md"

/-- The record synthesized by `createNoteFromGoogleEvent`: mapped
frontmatter plus the calendar id, under the deterministic note name —
`title - recurring-shortMasterId` for events carrying recurrence rules,
`title - date - shortId` otherwise. -/
def noteRecordForGoogleEvent (googleEvent : GEvent) (calendarId : String)
    (now : Dt) : Except GCError DataRecord := do
  match mapGoogleEventToFrontmatter googleEvent now with
  | .error msg => .error ⟨.UNKNOWN_ERROR, msg⟩
  | .ok fm =>
    let fm := objSet fm "google-calendar-id" (.str calendarId)
    let noteTitle := if jsTrimS googleEvent.summary ≠ "" then jsTrimS googleEvent.summary
                     else "Untitled Event"
    let sanitizedTitle := sanitizeTitle noteTitle
    let finalTitle := if sanitizedTitle ≠ "" then sanitizedTitle
                      else "Untitled Event"
    let noteName :=
      match googleEvent.recurrence with
      | some rules =>
        if rules.length > 0 then
          let eventIdShort :=
            jsTake 8 (googleEvent.recurringEventId.getD googleEvent.id)
          finalTitle ++ " - recurring-" ++ eventIdShort
        else
          finalTitle ++ " - " ++ formatYMD (eventStartDt googleEvent now).date
            ++ " - " ++ jsTake 8 googleEvent.id
      | none =>
        finalTitle ++ " - " ++ formatYMD (eventStartDt googleEvent now).date
          ++ " - " ++ jsTake 8 googleEvent.id
    return ⟨noteName ++ ".md", fm⟩

/-- Embeds `createNoteFromGoogleEvent`: validate, synthesize the record,
create the note and track the mapping; a vault failure surfaces as a
wrapped `UNKNOWN_ERROR`. -/
def createNoteFromGoogleEvent (env : SyncEnv) (googleEvent : GEvent)
    (calendarId : String) (mappings : List (String × String)) :
    Except GCError (List (String × String)) × List Call :=
  if googleEvent.id = "" then
    (.error ⟨.VALIDATION_ERROR, "Invalid Google Calendar event: missing ID"⟩, [])
  else if (jsTrimS calendarId) = "" then
    (.error ⟨.VALIDATION_ERROR, "Calendar ID is required for note creation"⟩, [])
  else
    match noteRecordForGoogleEvent googleEvent calendarId env.now with
    | .error e => (.error e, [])
    | .ok record =>
      match env.createNoteR record with
      | .error _ =>
        (.error ⟨.UNKNOWN_ERROR,
          "Failed to create note for Google Calendar event"⟩,
         [.dataCreateNote record])
      | .ok _ =>
        (.ok (mappingsSet mappings record.id googleEvent.id),
         [.dataCreateNote record])

/-- Reading of a frontmatter value as a `dayjs` instant, for the last-sync
comparison: date-bearing strings parse, anything else is an invalid date. -/
def valueAsDt (v : Value) : Option Dt :=
  match v with
  | .dateStr (.dateOnly d) => some ⟨d, 0, 0, 0⟩
  | .dateStr (.dateTime t) => some t
  | _ => none

/-- The remote-newer test of the Remote→Local pass:
`dayjs(event.updated).isAfter(lastSync ? dayjs(lastSync) : dayjs(0))`;
`dayjs` of an absent `updated` is the current time, and a comparison against
an unparsable (invalid) last-sync value is false. -/
def googleModifiedAfterSync (googleEvent : GEvent) (record : DataRecord)
    (now : Dt) : Bool :=
  let googleModified := googleEvent.updated.getD now
  match record.get "google-calendar-last-sync" with
  | some v =>
    if v.truthy then
      match valueAsDt v with
      | some t => isAfter googleModified t
      | none => false
    else isAfter googleModified epochDt
  | none => isAfter googleModified epochDt

/-- The record written back by `updateNoteFromGoogleEvent`: the existing
values spread-merged with the freshly mapped frontmatter plus calendar id. -/
def mergedNoteRecord (record : DataRecord) (fm : List (String × Value)) :
    DataRecord :=
  { record with values := fm.foldl (fun acc p => objSet acc p.1 p.2) record.values }

/-- Processing of one grouped remote event by the Remote→Local pass. -/
def syncEventToObsidian (env : SyncEnv) (calendarId : String)
    (byEventId : List (String × DataRecord))
    (byNoteName : List (String × DataRecord))
    (mappings : List (String × String))
    (baseEventId : String) (googleEvent : GEvent) : StepOut :=
  match rmapGet byEventId baseEventId with
  | some existingRecord =>
    if googleModifiedAfterSync googleEvent existingRecord env.now then
      match mapGoogleEventToFrontmatter googleEvent env.now with
      | .error _ => ⟨0, [], mappings⟩
      | .ok fm =>
        let fm := objSet fm "google-calendar-id" (.str calendarId)
        let updatedRecord := mergedNoteRecord existingRecord fm
        match env.updateRecordR updatedRecord with
        | .error _ => ⟨0, [.dataUpdateRecord updatedRecord], mappings⟩
        | .ok _ => ⟨1, [.dataUpdateRecord updatedRecord], mappings⟩
    else ⟨0, [], mappings⟩
  | none =>
    let noteName := guardNoteName googleEvent env.now
    if (rmapGet byNoteName noteName).isNone then
      match createNoteFromGoogleEvent env googleEvent calendarId mappings with
      | (.error _, tr) => ⟨0, tr, mappings⟩
      | (.ok mappings', tr) => ⟨1, tr, mappings'⟩
    else ⟨0, [], mappings⟩

/-- Embeds `syncGoogleToObsidian`: group events by base id, build the two
lookups, then process each grouped event with per-event error isolation. -/
def syncGoogleToObsidian (env : SyncEnv) (calendarId : String)
    (googleEvents : List GEvent) (existingRecords : List DataRecord)
    (mappings₀ : List (String × String)) : StepOut :=
  let grouped := eventsByBaseId googleEvents
  let byEventId := recordsByEventId existingRecords
  let byNoteName := recordsByNoteName existingRecords
  grouped.foldl (fun acc p =>
    let out := syncEventToObsidian env calendarId byEventId byNoteName
      acc.mappings p.1 p.2
    ⟨acc.count + out.count, acc.trace ++ out.trace, out.mappings⟩)
    ⟨0, [], mappings₀⟩

/-- Result counters returned by a successful `performSync`. -/
structure SyncResult where
  obsidianToGoogle : Nat
  googleToObsidian : Nat
  conflicts : Nat
deriving DecidableEq, Repr

/-- The input-validation and in-progress guard at the top of `performSync`,
checked in source order before any flag is set or call is made. -/
def performSyncCheck (st : EngineState) (calendarId : String)
    (dataFrame : Option DataFrame) : Option GCError :=
  if (jsTrimS calendarId) = "" then
    some ⟨.INVALID_CONFIGURATION, "Calendar ID is required for sync"⟩
  else if dataFrame.isNone then
    some ⟨.VALIDATION_ERROR, "Invalid data frame provided for sync"⟩
  else if st.syncInProgress then
    some ⟨.SYNC_IN_PROGRESS, "Sync already in progress"⟩
  else none

/-- Embeds `performSync`: guard, fetch window, remote fetch, the two passes,
last-sync stamp; the `finally` clears the running flag on both the normal
and the error path, while a guard rejection leaves the state untouched. -/
def performSync (env : SyncEnv) (st : EngineState) (calendarId : String)
    (dataFrame : Option DataFrame) (dateRange : Option (Dt × Dt)) :
    Except GCError SyncResult × EngineState × List Call :=
  match performSyncCheck st calendarId dataFrame, dataFrame with
  | some e, _ => (.error e, st, [])
  | none, none => (.error ⟨.VALIDATION_ERROR, "Invalid data frame provided for sync"⟩, st, [])
  | none, some frame =>
    let st1 : EngineState := { st with syncInProgress := true, conflicts := 0 }
    let timeMin := (dateRange.map Prod.fst).getD (subMonths 1 env.now)
    let timeMax := (dateRange.map Prod.snd).getD (addMonths 3 env.now)
    let trace0 := [Call.apiGetEvents calendarId timeMin timeMax]
    match env.getEventsR with
    | .error e =>
      (.error e, { st1 with syncInProgress := false }, trace0)
    | .ok googleEvents =>
      let calendarRecords := frame.records.filter isCalendarEvent
      let out1 := syncObsidianToGoogle env calendarId calendarRecords st1.mappings
      let out2 := syncGoogleToObsidian env calendarId googleEvents
        calendarRecords out1.mappings
      (.ok ⟨out1.count, out2.count, 0⟩,
       { st1 with syncInProgress := false, lastSync := some env.now,
                  mappings := out2.mappings },
       trace0 ++ out1.trace ++ out2.trace)

/-! ### Record-deletion propagation (`syncEngine.deleteGoogleEvent`,
`syncManager.onRecordDelete`, `BoardSettings.handleRecordDelete`) -/

/-- Embeds `deleteGoogleEvent`: when the record carries both a (truthy)
event id and calendar id, delete the remote event and drop the mapping; a
remote failure is re-thrown. -/
def deleteGoogleEvent (env : SyncEnv) (mappings : List (String × String))
    (record : DataRecord) :
    Except GCError (List (String × String)) × List Call :=
  let metadata := extractGoogleCalendarMetadata record
  match metadata.eventId, metadata.calendarId with
  | some eventId, some calId =>
    if eventId ≠ "" && calId ≠ "" then
      match env.deleteEventR calId eventId with
      | .ok _ => (.ok (mappingsDelete mappings record.id),
                  [.apiDeleteEvent calId eventId])
      | .error e => (.error e, [.apiDeleteEvent calId eventId])
    else (.ok mappings, [])
  | _, _ => (.ok mappings, [])

/-- Embeds `GoogleCalendarSyncManager.onRecordDelete`: no-op without an
engine or for non-calendar records; otherwise propagate the remote delete
and re-throw its failure. -/
def onRecordDelete (engineAvailable : Bool) (env : SyncEnv)
    (mappings : List (String × String)) (record : DataRecord) :
    Except GCError (List (String × String)) × List Call :=
  if ¬ engineAvailable || ¬ isCalendarEvent record then (.ok mappings, [])
  else deleteGoogleEvent env mappings record

/-- Embeds `handleRecordDelete` of the board settings view: the sync
deletion and the local deletion share one `try`; a throw from the sync step
skips the local `api.deleteRecord`, and a virtual occurrence is never
locally deleted. -/
def handleRecordDelete (syncManagerPresent engineAvailable : Bool)
    (env : SyncEnv) (mappings : List (String × String)) (record : DataRecord)
    (isVirtual : Bool) : List Call :=
  let (syncOutcome, tr) :=
    if syncManagerPresent then onRecordDelete engineAvailable env mappings record
    else (.ok mappings, [])
  match syncOutcome with
  | .error _ => tr
  | .ok _ => tr ++ (if ¬ isVirtual then [.dataDeleteRecord record.id] else [])

/-- The local deletions contained in a call trace. -/
def localDeletes (trace : List Call) : List String :=
  trace.filterMap (fun c =>
    match c with
    | .dataDeleteRecord id => some id
    | _ => none)

/-- The remote event deletions contained in a call trace. -/
def remoteDeletes (trace : List Call) : List (String × String) :=
  trace.filterMap (fun c =>
    match c with
    | .apiDeleteEvent calId eventId => some (calId, eventId)
    | _ => none)

/-- The remote event updates contained in a call trace. -/
def remoteUpdates (trace : List Call) : List String :=
  trace.filterMap (fun c =>
    match c with
    | .apiUpdateEvent _ eventId _ => some eventId
    | _ => none)

/-- The note creations contained in a call trace. -/
def noteCreates (trace : List Call) : List DataRecord :=
  trace.filterMap (fun c =>
    match c with
    | .dataCreateNote record => some record
    | _ => none)

/-! ### Concrete fixtures used by witnesses and counterexamples -/

/-- A fixed clock instant. -/
def nowFix : Dt := ⟨⟨2024, 6, 1⟩, 12, 0, 0⟩

/-- An environment in which every remote and vault operation succeeds. -/
def allOkEnv : SyncEnv :=
  { now := nowFix, getEventsR := .ok [],
    createEventR := fun _ => .ok "created-id",
    updateEventR := fun _ => .ok (),
    deleteEventR := fun _ _ => .ok (),
    updateRecordR := fun _ => .ok (),
    createNoteR := fun _ => .ok () }

/-- An environment in which the remote event deletion fails. -/
def deleteFailEnv : SyncEnv :=
  { allOkEnv with deleteEventR := fun _ _ => .error ⟨.NETWORK_ERROR, "net"⟩ }

/-- A record that carries a stored Google event id but no last-sync stamp. -/
def recNoLastSync : DataRecord :=
  ⟨"r1.md", [("due-date", .dateStr (.dateOnly ⟨2024, 3, 1⟩)),
             ("google-event-id", .str "e1")]⟩

/-- A previously-synced calendar-event record carrying event id, calendar id
and a due date. -/
def recSynced : DataRecord :=
  ⟨"note.md", [("due-date", .dateStr (.dateOnly ⟨2024, 1, 2⟩)),
               ("google-event-id", .str "e1"),
               ("google-calendar-id", .str "cal")]⟩

/-- A recurring remote master event titled `Standup`. -/
def standupEvent : GEvent :=
  { id := "abcd1234xyz", summary := "Standup",
    start := ⟨none, some ⟨2024, 1, 2⟩⟩, stop := ⟨none, some ⟨2024, 1, 3⟩⟩,
    recurrence := some ["RRULE:FREQ=WEEKLY"], updated := some nowFix }

/-- An existing local record whose name is exactly the recurring-style note
name of `standupEvent` (and which stores no Google event id). -/
def standupRecord : DataRecord :=
  ⟨"Standup - recurring-abcd1234.md",
   [("due-date", .dateStr (.dateOnly ⟨2024, 1, 2⟩))]⟩

/-- A timed remote event running from midnight to midnight. -/
def midnightEvent : GEvent :=
  { id := "e3", summary := "S",
    start := ⟨some ⟨⟨2024, 1, 2⟩, 0, 0, 0⟩, none⟩,
    stop := ⟨some ⟨⟨2024, 1, 3⟩, 0, 0, 0⟩, none⟩ }

/-- The mapper round trip of claimed interest: a remote event through
`mapGoogleEventToFrontmatter` into a record holding exactly those fields,
then back through `mapRecordToGoogleEvent`. -/
def mapEventRoundTrip (e : GEvent) (now : Dt) : Except String EventPatch :=
  match mapGoogleEventToFrontmatter e now with
  | .error m => .error m
  | .ok fm => mapRecordToGoogleEvent ⟨"n.md", fm⟩

/-- The per-date filter semantics the claim attributes to the expander —
follows the claim's words, not the source: an emitted date satisfies the
rule's BYMONTH, BYDAY and BYMONTHDAY constraints whenever those keys are
present. -/
def claimedFilterOk (ctx : ExpandCtx) (d : Dt) : Bool :=
  let dayMap : String → Option Nat := fun s =>
    match s with
    | "SU" => some 0 | "MO" => some 1 | "TU" => some 2 | "WE" => some 3
    | "TH" => some 4 | "FR" => some 5 | "SA" => some 6 | _ => none
  (ctx.byMonth.isEmpty || ctx.byMonth.contains d.date.m) &&
  (ctx.byDay.isEmpty || (ctx.byDay.filterMap dayMap).contains (dayOfWeek d.date)) &&
  (ctx.byMonthDay.isEmpty || ctx.byMonthDay.contains d.date.d)

/-! ### Helper lemmas on field maps -/

theorem objGet_objSet_self (l : List (String × Value)) (k : String) (v : Value) :
    objGet (objSet l k v) k = some v := by
  induction l with
  | nil => simp [objSet, objGet]
  | cons p rest ih =>
    by_cases h : p.1 = k <;> simp [objSet, objGet, h, ih]

theorem objGet_objSet_ne (l : List (String × Value)) (k k' : String) (v : Value)
    (h : k' ≠ k) : objGet (objSet l k v) k' = objGet l k' := by
  induction l with
  | nil => simp [objSet, objGet, Ne.symm h]
  | cons p rest ih =>
    by_cases hp : p.1 = k
    · simp [objSet, objGet, hp, Ne.symm h, h]
    · by_cases hp' : p.1 = k' <;> simp [objSet, objGet, hp, hp', Ne.symm h, h, ih]

theorem objGet_ite (c : Prop) [Decidable c] (a b : List (String × Value))
    (k : String) :
    objGet (if c then a else b) k = if c then objGet a k else objGet b k := by
  split <;> rfl

/-- The decoration step touches only the description, location and
recurrence keys. -/
theorem decorateFrontmatter_preserves (e : GEvent) (fm : List (String × Value))
    (k : String)
    (h1 : k ≠ "description") (h2 : k ≠ "location")
    (h3 : k ≠ "google-recurrence") (h4 : k ≠ "google-is-recurring")
    (h5 : k ≠ "google-recurring-event-id") :
    objGet (decorateFrontmatter e fm) k = objGet fm k := by
  unfold decorateFrontmatter
  cases e.description <;> cases e.location <;>
    rcases e.recurrence with _ | rules <;> cases e.recurringEventId <;>
    simp [objGet_ite, objGet_objSet_ne, h1, h2, h3, h4, h5]

/-- The base frontmatter holds none of the timing keys the reverse mapper
reads. -/
theorem baseFrontmatter_timing (e : GEvent) (now : Dt) (k : String)
    (h1 : k ≠ "google-event-id") (h2 : k ≠ "google-calendar-sync")
    (h3 : k ≠ "google-calendar-last-sync") (h4 : k ≠ "tags") :
    objGet (baseFrontmatter e now) k = none := by
  simp [baseFrontmatter, objGet, Ne.symm h1, Ne.symm h2, Ne.symm h3, Ne.symm h4]

/-! ### Helper lemmas on the expansion loop -/

/-- Each loop iteration emits at most one date, so the fueled loop emits at
most `fuel` dates. -/
theorem expandLoopF_length_le (ctx : ExpandCtx) :
    ∀ (fuel : Nat) (cur : Dt) (cnt : Nat),
      (expandLoopF ctx fuel cur cnt).length ≤ fuel := by
  intro fuel
  induction fuel with
  | zero => intro cur cnt; simp [expandLoopF]
  | succ fuel ih =>
    intro cur cnt
    rw [expandLoopF]
    dsimp only
    split
    next =>
      split
      next => simp
      next =>
        split
        next => simp
        next =>
          split
          next => simp
          next =>
            have hr := ih (stepFreq ctx cur) (cnt + 1)
            split
            next =>
              simp only [List.length_cons]
              omega
            next => exact le_trans hr (by omega)
    next => simp

/-- The loop emits at most the remaining number of occurrence slots. -/
theorem expandLoop_length_le (ctx : ExpandCtx) (cur : Dt) (cnt : Nat) :
    (expandLoop ctx cur cnt).length ≤ ctx.maxOccurrences - cnt :=
  expandLoopF_length_le ctx (ctx.maxOccurrences - cnt) cur cnt

/-- Every date the fueled loop emits passed the `BYMONTH` filter. -/
theorem expandLoopF_byMonthOk (ctx : ExpandCtx) :
    ∀ (fuel : Nat) (cur : Dt) (cnt : Nat),
      ∀ d ∈ expandLoopF ctx fuel cur cnt, byMonthOk ctx.byMonth d = true := by
  intro fuel
  induction fuel with
  | zero => intro cur cnt; simp [expandLoopF]
  | succ fuel ih =>
    intro cur cnt
    rw [expandLoopF]
    dsimp only
    split
    next =>
      split
      next => simp
      next =>
        split
        next => simp
        next =>
          split
          next => simp
          next =>
            have hr := ih (stepFreq ctx cur) (cnt + 1)
            split
            next hpush =>
              intro d hd
              rcases List.mem_cons.mp hd with rfl | hd'
              · exact ((Bool.and_eq_true _ _).mp hpush).1
              · exact hr d hd'
            next => exact hr
    next => simp

/-- Every date the loop emits passed the `BYMONTH` filter. -/
theorem expandLoop_byMonthOk (ctx : ExpandCtx) (cur : Dt) (cnt : Nat) :
    ∀ d ∈ expandLoop ctx cur cnt, byMonthOk ctx.byMonth d = true :=
  expandLoopF_byMonthOk ctx (ctx.maxOccurrences - cnt) cur cnt

/-! ### Claim theorems -/

/-- C1: when a sync is already running, a second `performSync` call with a
non-empty calendar id and a well-formed record set fails with the
SYNC_IN_PROGRESS error, performs no remote call or record mutation (empty
trace), and leaves the engine state exactly as it found it — so the running
invocation, a function of that state, proceeds as if the second call had
never been made. -/
theorem performSync_second_call_fails_fast (env : SyncEnv) (st : EngineState)
    (calendarId : String) (dataFrame : Option DataFrame)
    (dateRange : Option (Dt × Dt)) (frame : DataFrame)
    (hCal : jsTrimS calendarId ≠ "") (hDf : dataFrame = some frame)
    (hRun : st.syncInProgress = true) :
    performSync env st calendarId dataFrame dateRange =
      (.error ⟨.SYNC_IN_PROGRESS, "Sync already in progress"⟩, st, []) := by
  subst hDf
  unfold performSync performSyncCheck
  simp [hCal, hRun]

/-- Witness for C1 at a concrete busy engine and valid inputs. -/
theorem performSync_second_call_fails_fast_witness :
    performSync allOkEnv ⟨true, none, 0, []⟩ "cal" (some ⟨[]⟩) none =
      (.error ⟨.SYNC_IN_PROGRESS, "Sync already in progress"⟩,
       ⟨true, none, 0, []⟩, []) :=
  performSync_second_call_fails_fast allOkEnv ⟨true, none, 0, []⟩ "cal"
    (some ⟨[]⟩) none ⟨[]⟩ (by decide) rfl rfl

/-- C9 (amended): every `performSync` invocation that passes the in-progress
guard — equivalently, that starts with the flag clear — terminates (normally
or with an error) with `syncInProgress` false, `getSyncStatus().isActive`
false, and the guard of a later call never rejects with SYNC_IN_PROGRESS
from that state; an invocation rejected by the guard, however, leaves the
flag exactly as it found it. -/
theorem performSync_clears_flag (env : SyncEnv) (st : EngineState)
    (calendarId : String) (dataFrame : Option DataFrame)
    (dateRange : Option (Dt × Dt))
    (hIdle : st.syncInProgress = false) :
    (performSync env st calendarId dataFrame dateRange).2.1.syncInProgress = false ∧
    (getSyncStatus (performSync env st calendarId dataFrame dateRange).2.1).isActive = false ∧
    (∀ (calendarId' : String) (frame' : DataFrame),
      performSyncCheck (performSync env st calendarId dataFrame dateRange).2.1
          calendarId' (some frame') ≠
        some ⟨.SYNC_IN_PROGRESS, "Sync already in progress"⟩) := by
  have hflag :
      (performSync env st calendarId dataFrame dateRange).2.1.syncInProgress = false := by
    unfold performSync
    cases hc : performSyncCheck st calendarId dataFrame with
    | some e => simp [hIdle]
    | none =>
      cases dataFrame with
      | none => simp [hIdle]
      | some frame => cases hg : env.getEventsR <;> simp
  refine ⟨hflag, ?_, ?_⟩
  · simp [getSyncStatus, hflag]
  · intro calendarId' frame'
    unfold performSyncCheck
    split
    · simp
    · simp [hflag]

/-- Counterexample to C9 as stated: an invocation entered while another sync
holds the flag terminates (throwing SYNC_IN_PROGRESS), yet after its
termination the engine's `syncInProgress` flag is still true — the claim's
"after every invocation terminates … the flag is false" fails for
guard-rejected invocations. -/
theorem performSync_busy_termination_keeps_flag :
    (performSync allOkEnv ⟨true, none, 2, []⟩ "busycal" (some ⟨[]⟩) none).1 =
      .error ⟨.SYNC_IN_PROGRESS, "Sync already in progress"⟩ ∧
    (performSync allOkEnv ⟨true, none, 2, []⟩ "busycal" (some ⟨[]⟩) none).2.1.syncInProgress
      = true := ⟨rfl, rfl⟩

/-- Witness for the amended C9 at a concrete idle engine. -/
theorem performSync_clears_flag_witness :
    (performSync allOkEnv ⟨false, none, 0, []⟩ "cal" (some ⟨[]⟩) none).2.1.syncInProgress = false ∧
    (getSyncStatus (performSync allOkEnv ⟨false, none, 0, []⟩ "cal" (some ⟨[]⟩) none).2.1).isActive = false ∧
    (∀ (calendarId' : String) (frame' : DataFrame),
      performSyncCheck (performSync allOkEnv ⟨false, none, 0, []⟩ "cal" (some ⟨[]⟩) none).2.1
          calendarId' (some frame') ≠
        some ⟨.SYNC_IN_PROGRESS, "Sync already in progress"⟩) :=
  performSync_clears_flag allOkEnv ⟨false, none, 0, []⟩ "cal" (some ⟨[]⟩) none rfl

/-- C4: for an unknown FREQ value the source's `switch` `default` only exits
the `switch`, not the `while` loop, so — far from stopping expansion
immediately — the expander re-emits the unchanged anchor date once per
remaining occurrence slot.  At the failing input `FREQ=HOURLY;COUNT=3` with
an in-window anchor the result is the anchor three times, contradicting the
claimed "partial result … at most the anchor date, with no date appearing
more than once"; the code's own comment ("break to prevent infinite loop")
documents the intended early exit. -/
theorem parseRecurrenceRule_unknown_freq_repeats :
    parseRecurrenceRule "FREQ=HOURLY;COUNT=3" ⟨⟨2024, 1, 5⟩, 0, 0, 0⟩
        ⟨⟨2024, 1, 1⟩, 0, 0, 0⟩ ⟨⟨2024, 1, 31⟩, 0, 0, 0⟩ =
      [⟨⟨2024, 1, 5⟩, 0, 0, 0⟩, ⟨⟨2024, 1, 5⟩, 0, 0, 0⟩,
       ⟨⟨2024, 1, 5⟩, 0, 0, 0⟩] := by
  decide

/-- A string-typed field read by `getStr` holds exactly that string value. -/
theorem getStr_eq_some (r : DataRecord) (k s : String)
    (h : getStr r k = some s) : r.get k = some (.str s) := by
  unfold getStr at h
  cases hv : r.get k with
  | none => rw [hv] at h; exact absurd h (by simp)
  | some v => rw [hv] at h; cases v <;> simp_all

/-- C6 (amended): a record counts as modified exactly when it lacks a
last-sync stamp or lacks a stored remote-event id; consequently, an
eligible record that carries both a (truthy) remote-event id and a (truthy)
last-sync stamp is treated as already reconciled by the Local→Remote pass —
its processing performs no call at all. -/
theorem isRecordModified_id_and_lastsync (env : SyncEnv) (calendarId : String)
    (mappings : List (String × String)) (r : DataRecord) :
    (isRecordModified r =
      (!otruthy (r.get "google-calendar-last-sync") ||
       !otruthy (r.get "google-event-id"))) ∧
    (∀ eid : String, getStr r "google-event-id" = some eid → eid ≠ "" →
      otruthy (r.get "google-calendar-last-sync") = true →
      syncRecordToGoogle env calendarId mappings r = ⟨0, [], mappings⟩) := by
  constructor
  · cases hl : otruthy (r.get "google-calendar-last-sync") <;>
      cases hg : otruthy (r.get "google-event-id") <;>
      simp [isRecordModified, hl, hg]
  · intro eid heid hne hsync
    have hval := getStr_eq_some r _ _ heid
    have hmod : isRecordModified r = false := by
      unfold isRecordModified
      rw [hval, hsync]
      simp [otruthy, Value.truthy, hne]
    unfold syncRecordToGoogle
    by_cases hs : shouldSyncToGoogle r
    · simp [hs, extractGoogleCalendarMetadata, heid, hne, hmod]
    · simp [hs]

/-- Counterexample to C6 as stated: an eligible record that carries a
remote-event id but no last-sync stamp counts as modified, and the
Local→Remote pass issues a remote update for it — so "modified exactly when
it has no remote-event-id" and "no remote update for records with an id"
both fail. -/
theorem localPass_updates_record_with_id_no_lastsync :
    shouldSyncToGoogle recNoLastSync = true ∧
    getStr recNoLastSync "google-event-id" = some "e1" ∧
    isRecordModified recNoLastSync = true ∧
    remoteUpdates (syncObsidianToGoogle allOkEnv "cal" [recNoLastSync] []).trace
      = ["e1"] :=
  ⟨rfl, rfl, rfl, rfl⟩

/-- A record carrying both a remote-event id and a last-sync stamp. -/
def recReconciled : DataRecord :=
  ⟨"r2.md", [("due-date", .dateStr (.dateOnly ⟨2024, 3, 1⟩)),
             ("google-event-id", .str "e1"),
             ("google-calendar-last-sync", .dateStr (.dateTime nowFix))]⟩

/-- Witness for the amended C6 at a reconciled concrete record. -/
theorem isRecordModified_id_and_lastsync_witness :
    (isRecordModified recReconciled =
      (!otruthy (recReconciled.get "google-calendar-last-sync") ||
       !otruthy (recReconciled.get "google-event-id"))) ∧
    syncRecordToGoogle allOkEnv "cal" [] recReconciled = ⟨0, [], []⟩ := by
  have h := isRecordModified_id_and_lastsync allOkEnv "cal" [] recReconciled
  exact ⟨h.1, h.2 "e1" rfl (by decide) rfl⟩

/-- C7: the duplicate guard of the Remote→Local pass computes the date-based
note name even for recurring master events, while creation names the record
`sanitizedTitle - recurring-shortMasterId`; at the failing input the name
`Standup - recurring-abcd1234.md` is already taken by a local record, yet the
pass still asks the vault to create a record with exactly that name — the
claimed skip does not happen (the source's own "check if we would create a
duplicate file name" guard is ineffective for recurring events). -/
theorem remotePass_creates_despite_recurring_name_taken :
    rmapGet (recordsByNoteName [standupRecord]) standupRecord.id
      = some standupRecord ∧
    guardNoteName standupEvent nowFix = "Standup - 2024-01-02 - abcd1234.md" ∧
    standupRecord.id = "Standup - recurring-abcd1234.md" ∧
    (noteCreates (syncGoogleToObsidian allOkEnv "cal" [standupEvent]
        [standupRecord] []).trace).map DataRecord.id
      = ["Standup - recurring-abcd1234.md"] :=
  ⟨rfl, rfl, rfl, rfl⟩

/-- Local deletions distribute over trace concatenation. -/
theorem localDeletes_append (a b : List Call) :
    localDeletes (a ++ b) = localDeletes a ++ localDeletes b := by
  simp [localDeletes]

/-- The record-deletion propagation step never itself deletes locally. -/
theorem localDeletes_onRecordDelete (engA : Bool) (env : SyncEnv)
    (mappings : List (String × String)) (record : DataRecord) :
    localDeletes (onRecordDelete engA env mappings record).2 = [] := by
  unfold onRecordDelete deleteGoogleEvent
  split
  · simp [localDeletes]
  · dsimp only
    split
    next =>
      split
      next => split <;> simp [localDeletes]
      next => simp [localDeletes]
    next => simp [localDeletes]

/-- Closed form of the delete handler when a sync manager is present: the
sync step's trace, plus the local delete exactly when the sync step returned
normally and the record is not virtual. -/
theorem handleRecordDelete_true_eq (engA : Bool) (env : SyncEnv)
    (mappings : List (String × String)) (record : DataRecord)
    (isVirtual : Bool) :
    handleRecordDelete true engA env mappings record isVirtual =
      (match (onRecordDelete engA env mappings record).1 with
       | .error _ => (onRecordDelete engA env mappings record).2
       | .ok _ => (onRecordDelete engA env mappings record).2 ++
           (if ¬ isVirtual then [.dataDeleteRecord record.id] else [])) := by
  unfold handleRecordDelete
  rcases onRecordDelete engA env mappings record with ⟨out, tr⟩
  cases out <;> rfl

/-- Local deletions of the empty and the singleton-delete trace. -/
theorem localDeletes_nil : localDeletes [] = [] := rfl

theorem localDeletes_delete_single (id : String) :
    localDeletes [Call.dataDeleteRecord id] = [id] := rfl

/-- C8 (amended): a virtual occurrence is never locally deleted; for a
non-virtual record the local deletion is performed when the sync-deletion
step returns normally (including when it no-ops), but a throw from the
remote delete — shared `try` with the local deletion — skips the local
deletion entirely. -/
theorem handleRecordDelete_local_scope (smP engA : Bool) (env : SyncEnv)
    (mappings : List (String × String)) (record : DataRecord) :
    localDeletes (handleRecordDelete smP engA env mappings record true) = [] ∧
    (∀ m', (onRecordDelete engA env mappings record).1 = .ok m' →
      localDeletes (handleRecordDelete smP engA env mappings record false)
        = [record.id]) ∧
    (∀ err, (onRecordDelete engA env mappings record).1 = .error err →
      smP = true →
      localDeletes (handleRecordDelete smP engA env mappings record false)
        = []) := by
  have hnil := localDeletes_onRecordDelete engA env mappings record
  cases smP with
  | false =>
    exact ⟨rfl, fun m' _ => rfl, fun err _ hfalse => absurd hfalse (by simp)⟩
  | true =>
    refine ⟨?_, ?_, ?_⟩
    · rw [handleRecordDelete_true_eq]
      cases hout : (onRecordDelete engA env mappings record).1 <;>
        simp [hout, localDeletes_append, hnil, localDeletes_nil]
    · intro m' hok
      rw [handleRecordDelete_true_eq, hok]
      simp [localDeletes_append, hnil, localDeletes_nil,
        localDeletes_delete_single]
    · intro err herr _
      rw [handleRecordDelete_true_eq, herr]
      exact hnil

/-- Counterexample to C8 as stated: for a non-virtual previously-synced
record whose remote delete fails, the remote delete is attempted but the
local record store is never asked to delete — local deletion is not
performed "regardless of the remote outcome". -/
theorem deleteFail_skips_local_delete :
    isCalendarEvent recSynced = true ∧
    remoteDeletes (handleRecordDelete true true deleteFailEnv [] recSynced false)
      = [("cal", "e1")] ∧
    localDeletes (handleRecordDelete true true deleteFailEnv [] recSynced false)
      = [] :=
  ⟨rfl, rfl, rfl⟩

/-- Witness for the amended C8 at a concrete record: no local delete when
virtual, a local delete when the remote delete succeeds. -/
theorem handleRecordDelete_local_scope_witness :
    localDeletes (handleRecordDelete true true allOkEnv [] recSynced true) = [] ∧
    localDeletes (handleRecordDelete true true allOkEnv [] recSynced false)
      = ["note.md"] := by
  have h := handleRecordDelete_local_scope true true allOkEnv [] recSynced
  exact ⟨h.1, h.2.1 [] rfl⟩

/-- C2: when a wrapped call fails with a 401-classified error and a callback
is registered, exactly one token refresh is attempted; if the refresh
succeeds the callback receives exactly the new token and the call is retried
exactly once (two attempts in total), the retry's success becoming the
result and its failure — of any kind — surfacing as the authentication-failed
`TOKEN_REFRESH_FAILED` error; if the refresh fails there is no callback and
no retry and the same authentication-failed error surfaces.  In no case is
there a second refresh or a second retry. -/
theorem executeWithRetry_single_refresh {α : Type} (env : RetryEnv α)
    (e : JsErr) (hFail : env.call 0 = .error e)
    (hAuth : isAuthenticationError e = true)
    (hCb : env.callbackRegistered = true) :
    (executeWithRetry env).refreshes = 1 ∧
    (executeWithRetry env).attempts ≤ 2 ∧
    (∀ tok : String, env.refresh = .ok tok →
      (executeWithRetry env).callbackCalls = [tok] ∧
      (executeWithRetry env).attempts = 2 ∧
      (∀ a : α, env.call 1 = .ok a → (executeWithRetry env).result = .ok a) ∧
      (∀ e2 : JsErr, env.call 1 = .error e2 →
        (executeWithRetry env).result = .error ⟨.TOKEN_REFRESH_FAILED,
          "Authentication failed. Please re-authenticate with Google Calendar."⟩)) ∧
    (∀ e3 : JsErr, env.refresh = .error e3 →
      (executeWithRetry env).callbackCalls = [] ∧
      (executeWithRetry env).attempts = 1 ∧
      (executeWithRetry env).result = .error ⟨.TOKEN_REFRESH_FAILED,
        "Authentication failed. Please re-authenticate with Google Calendar."⟩) := by
  unfold executeWithRetry
  rw [hFail]
  cases hr : env.refresh with
  | ok tok =>
    cases hc1 : env.call 1 with
    | ok a => simp [hAuth, hCb, hr, hc1]
    | error e2 => simp [hAuth, hCb, hr, hc1]
  | error e3 => simp [hAuth, hr]

/-- A concrete retry environment: first attempt rejected with HTTP 401, the
refresh yields a fresh token and the retry succeeds. -/
def retryEnvFix : RetryEnv String :=
  { call := fun n => if n = 0 then .error ⟨none, some 401, none, none⟩
                     else .ok "value",
    refresh := .ok "fresh-token",
    callbackRegistered := true }

/-- Witness for C2 at the concrete retry environment. -/
theorem executeWithRetry_single_refresh_witness :
    (executeWithRetry retryEnvFix).refreshes = 1 ∧
    (executeWithRetry retryEnvFix).attempts = 2 ∧
    (executeWithRetry retryEnvFix).callbackCalls = ["fresh-token"] ∧
    (executeWithRetry retryEnvFix).result = .ok "value" := by
  have h := executeWithRetry_single_refresh retryEnvFix
    ⟨none, some 401, none, none⟩ rfl (by decide) rfl
  rcases h with ⟨h1, _, h3, _⟩
  rcases h3 "fresh-token" rfl with ⟨hcb, hat, hok, _⟩
  exact ⟨h1, hat, hcb, hok "value" rfl⟩

/-- The maximum-occurrence bound derived in `ruleCtx` from the parsed COUNT:
the COUNT value itself when present and non-zero, else the 365 safety
bound. -/
theorem ruleCtx_maxOccurrences (rrule : String) (viewStart viewEnd : Dt) :
    (ruleCtx rrule viewStart viewEnd).maxOccurrences =
      (match (ruleCtx rrule viewStart viewEnd).count with
       | some c => if c = 0 then 365 else c
       | none => 365) := by
  rfl

/-- C3 (amended): for a rule whose parsed COUNT is `N ≥ 1` and which has no
UNTIL, `parseRecurrenceRule` emits at most `N` dates, and every emitted date
except possibly the first satisfies the BYMONTH filter when present; the
anchor, when emitted, is emitted unfiltered, and the BYDAY / BYMONTHDAY keys
steer generation (for WEEKLY / MONTHLY) but are never applied as filters. -/
theorem parseRecurrenceRule_count_and_bymonth (rrule : String)
    (a viewStart viewEnd : Dt) (N : Nat)
    (hC : (ruleCtx rrule viewStart viewEnd).count = some N) (hN : 1 ≤ N)
    (hU : (ruleCtx rrule viewStart viewEnd).untilDate = none) :
    (parseRecurrenceRule rrule a viewStart viewEnd).length ≤ N ∧
    (∀ d ∈ (parseRecurrenceRule rrule a viewStart viewEnd).drop 1,
      byMonthOk (ruleCtx rrule viewStart viewEnd).byMonth d = true) := by
  have hmax : (ruleCtx rrule viewStart viewEnd).maxOccurrences = N := by
    rw [ruleCtx_maxOccurrences, hC]
    have : N ≠ 0 := by omega
    simp [this]
  have hlen := expandLoop_length_le (ruleCtx rrule viewStart viewEnd) a 1
  have hBy := expandLoop_byMonthOk (ruleCtx rrule viewStart viewEnd) a 1
  constructor
  · unfold parseRecurrenceRule
    dsimp only
    split
    · simp only [List.length_append, List.length_cons, List.length_nil]
      omega
    · simp only [List.nil_append]
      omega
  · intro d hd
    unfold parseRecurrenceRule at hd
    dsimp only at hd
    rcases hsplit : (if inWindow viewStart viewEnd a then [a] else []) with _ | ⟨x, xs⟩
    · rw [hsplit] at hd
      simp only [List.nil_append] at hd
      exact hBy d (List.mem_of_mem_drop hd)
    · rw [hsplit] at hd
      have hxs : xs = [] := by
        by_cases hw : inWindow viewStart viewEnd a = true <;>
          simp [hw] at hsplit <;> simp [hsplit]
      subst hxs
      simp only [List.cons_append, List.drop_succ_cons, List.drop_zero,
        List.nil_append] at hd
      exact hBy d hd

/-- Counterexample to C3 as stated: the rule
`FREQ=DAILY;COUNT=2;BYDAY=MO;BYMONTHDAY=15;BYMONTH=1` anchored on Friday
2024-02-02 emits exactly the anchor, which violates all three of its BYDAY,
BYMONTHDAY and BYMONTH constraints (the anchor is pushed unfiltered); and the
rule `FREQ=YEARLY;COUNT=0` emits one date although its COUNT is 0 (a falsy
COUNT falls back to the 365 safety bound), so "at most N" also fails at
`N = 0`. -/
theorem parseRecurrenceRule_filters_not_enforced :
    parseRecurrenceRule "FREQ=DAILY;COUNT=2;BYDAY=MO;BYMONTHDAY=15;BYMONTH=1"
        ⟨⟨2024, 2, 2⟩, 0, 0, 0⟩ ⟨⟨2024, 1, 1⟩, 0, 0, 0⟩ ⟨⟨2024, 12, 31⟩, 0, 0, 0⟩
      = [⟨⟨2024, 2, 2⟩, 0, 0, 0⟩] ∧
    claimedFilterOk
        (ruleCtx "FREQ=DAILY;COUNT=2;BYDAY=MO;BYMONTHDAY=15;BYMONTH=1"
          ⟨⟨2024, 1, 1⟩, 0, 0, 0⟩ ⟨⟨2024, 12, 31⟩, 0, 0, 0⟩)
        ⟨⟨2024, 2, 2⟩, 0, 0, 0⟩ = false ∧
    (ruleCtx "FREQ=YEARLY;COUNT=0" ⟨⟨2024, 1, 1⟩, 0, 0, 0⟩
        ⟨⟨2024, 1, 31⟩, 0, 0, 0⟩).count = some 0 ∧
    (parseRecurrenceRule "FREQ=YEARLY;COUNT=0" ⟨⟨2024, 1, 31⟩, 0, 0, 0⟩
        ⟨⟨2024, 1, 1⟩, 0, 0, 0⟩ ⟨⟨2024, 1, 31⟩, 0, 0, 0⟩).length = 1 := by
  refine ⟨by decide, by decide, by decide, by decide⟩

/-- The `dayjs` instant a parsed date-bearing string denotes. -/
def dateValDt : DateVal → Dt
  | .dateOnly d => ⟨d, 0, 0, 0⟩
  | .dateTime t => t

/-- `safeDateParse` succeeds on every date-bearing string value. -/
theorem safeDateParse_dateStr (v : DateVal) (name : String) :
    safeDateParse (some (.dateStr v)) name = .ok (dateValDt v) := by
  cases v <;> rfl

/-- The frontmatter produced for an all-day remote event: the decorated base
plus a single `due-date` field holding the start calendar date. -/
theorem mapGoogleEventToFrontmatter_allday (e : GEvent) (now : Dt) (d : Date)
    (h1 : e.start.dateTime = none) (h2 : e.start.date = some d) :
    mapGoogleEventToFrontmatter e now =
      .ok (objSet (decorateFrontmatter e (baseFrontmatter e now)) "due-date"
        (.dateStr (.dateOnly d))) := by
  unfold mapGoogleEventToFrontmatter boundaryVal
  rw [h1, h2]
  simp [safeDateParse]

/-- The frontmatter produced for a timed remote event (both boundaries
carrying date-times): clock times, due date, and the two full ISO
date-times. -/
theorem mapGoogleEventToFrontmatter_timed (e : GEvent) (now : Dt)
    (sdt edt : Dt)
    (h1 : e.start.dateTime = some sdt) (h2 : e.stop.dateTime = some edt) :
    mapGoogleEventToFrontmatter e now =
      .ok (objSet (objSet (objSet (objSet (objSet
        (decorateFrontmatter e (baseFrontmatter e now))
        "start-time" (.timeStr sdt.h sdt.mi))
        "end-time" (.timeStr edt.h edt.mi))
        "due-date" (.dateStr (.dateOnly sdt.date)))
        "start-date" (toISOVal sdt))
        "end-date" (toISOVal edt)) := by
  unfold mapGoogleEventToFrontmatter boundaryVal
  rw [h1, h2]
  rfl

/-- Reduction of an `Except.ok` bind, used to evaluate the mapper's
do-blocks. -/
theorem exceptBind_ok {ε α β : Type} (a : α) (f : α → Except ε β) :
    ((Except.ok a : Except ε α) >>= f) = f a := rfl

/-- `pure` into `Except` is `Except.ok`. -/
theorem exceptPure_eq {ε α : Type} (a : α) :
    (pure a : Except ε α) = Except.ok a := rfl

/-- The timed branch of the reverse mapper: a record with parsed start/end
dates not both exactly at midnight maps to a timed event carrying exactly
those instants. -/
theorem mapRecord_startend_timed (r : DataRecord) (v1 v2 : DateVal)
    (h1 : objGet r.values "start-date" = some (.dateStr v1))
    (h2 : objGet r.values "end-date" = some (.dateStr v2))
    (hnz : (dateValDt v1).h ≠ 0 ∨ (dateValDt v1).mi ≠ 0 ∨
           (dateValDt v2).h ≠ 0 ∨ (dateValDt v2).mi ≠ 0) :
    ∃ p, mapRecordToGoogleEvent r = .ok p ∧
      p.start = some ⟨some (dateValDt v1), none⟩ ∧
      p.stop = some ⟨some (dateValDt v2), none⟩ := by
  unfold mapRecordToGoogleEvent
  dsimp only
  rw [h1, h2]
  simp only [otruthy, Value.truthy, Bool.and_self, if_true, safeDateParse_dateStr,
    exceptBind_ok, exceptPure_eq, Bool.or_eq_true, bne_iff_ne]
  split
  next => exact ⟨_, rfl, rfl, rfl⟩
  next hcond => exact absurd hcond (by tauto)

/-- The due-date-only branch of the reverse mapper: with no start date and
no start time, a midnight due date maps to an all-day event with the end
date exclusive-incremented. -/
theorem mapRecord_due_only (r : DataRecord) (dv : DateVal)
    (hsd : objGet r.values "start-date" = none)
    (hst : objGet r.values "start-time" = none)
    (hdd : objGet r.values "due-date" = some (.dateStr dv))
    (h0 : (dateValDt dv).h = 0) (hm : (dateValDt dv).mi = 0) :
    ∃ p, mapRecordToGoogleEvent r = .ok p ∧
      p.start = some ⟨none, some (dateValDt dv).date⟩ ∧
      p.stop = some ⟨none, some (addDaysD 1 (dateValDt dv).date)⟩ := by
  unfold mapRecordToGoogleEvent
  dsimp only
  rw [hsd, hst, hdd]
  simp [otruthy, Value.truthy, safeDateParse_dateStr, exceptBind_ok,
    exceptPure_eq, h0, hm]

/-- C5 (amended): the mapper round trip preserves boundary semantics for
all-day events unconditionally — same start calendar date, end exclusive one
day after that date — and for timed events whose boundaries are not both
exactly at midnight (hour and minute both zero), whose start and end
instants survive exactly; a timed midnight-to-midnight event instead comes
back as all-day (see the counterexample). -/
theorem mapEventRoundTrip_boundary (e : GEvent) (now : Dt) :
    (∀ d : Date, e.start.dateTime = none → e.start.date = some d →
      ∃ p, mapEventRoundTrip e now = .ok p ∧
        p.start = some ⟨none, some d⟩ ∧
        p.stop = some ⟨none, some (addDaysD 1 d)⟩) ∧
    (∀ sdt edt : Dt, e.start.dateTime = some sdt → e.stop.dateTime = some edt →
      (sdt.h ≠ 0 ∨ sdt.mi ≠ 0 ∨ edt.h ≠ 0 ∨ edt.mi ≠ 0) →
      ∃ p, mapEventRoundTrip e now = .ok p ∧
        p.start = some ⟨some sdt, none⟩ ∧
        p.stop = some ⟨some edt, none⟩) := by
  constructor
  · intro d h1 h2
    have hfm := mapGoogleEventToFrontmatter_allday e now d h1 h2
    unfold mapEventRoundTrip
    rw [hfm]
    have hpre : ∀ k : String, k ≠ "due-date" →
        k ≠ "description" → k ≠ "location" → k ≠ "google-recurrence" →
        k ≠ "google-is-recurring" → k ≠ "google-recurring-event-id" →
        k ≠ "google-event-id" → k ≠ "google-calendar-sync" →
        k ≠ "google-calendar-last-sync" → k ≠ "tags" →
        objGet (objSet (decorateFrontmatter e (baseFrontmatter e now))
          "due-date" (.dateStr (.dateOnly d))) k = none := by
      intro k hk1 hk2 hk3 hk4 hk5 hk6 hk7 hk8 hk9 hk10
      rw [objGet_objSet_ne _ _ _ _ hk1,
          decorateFrontmatter_preserves e _ _ hk2 hk3 hk4 hk5 hk6,
          baseFrontmatter_timing e now _ hk7 hk8 hk9 hk10]
    have hsd := hpre "start-date" (by decide) (by decide) (by decide)
      (by decide) (by decide) (by decide) (by decide) (by decide) (by decide)
      (by decide)
    have hst := hpre "start-time" (by decide) (by decide) (by decide)
      (by decide) (by decide) (by decide) (by decide) (by decide) (by decide)
      (by decide)
    have hdd := objGet_objSet_self
      (decorateFrontmatter e (baseFrontmatter e now)) "due-date"
      (.dateStr (.dateOnly d))
    exact mapRecord_due_only ⟨"n.md", _⟩ (.dateOnly d) hsd hst hdd rfl rfl
  · intro sdt edt h1 h2 hmid
    have hfm := mapGoogleEventToFrontmatter_timed e now sdt edt h1 h2
    unfold mapEventRoundTrip
    rw [hfm]
    have hsd : objGet (objSet (objSet (objSet (objSet (objSet
        (decorateFrontmatter e (baseFrontmatter e now))
        "start-time" (.timeStr sdt.h sdt.mi))
        "end-time" (.timeStr edt.h edt.mi))
        "due-date" (.dateStr (.dateOnly sdt.date)))
        "start-date" (toISOVal sdt))
        "end-date" (toISOVal edt)) "start-date"
        = some (.dateStr (.dateTime sdt)) := by
      rw [objGet_objSet_ne _ _ _ _ (by decide)]
      exact objGet_objSet_self _ _ _
    have hed : objGet (objSet (objSet (objSet (objSet (objSet
        (decorateFrontmatter e (baseFrontmatter e now))
        "start-time" (.timeStr sdt.h sdt.mi))
        "end-time" (.timeStr edt.h edt.mi))
        "due-date" (.dateStr (.dateOnly sdt.date)))
        "start-date" (toISOVal sdt))
        "end-date" (toISOVal edt)) "end-date"
        = some (.dateStr (.dateTime edt)) := objGet_objSet_self _ _ _
    exact mapRecord_startend_timed ⟨"n.md", _⟩ (.dateTime sdt) (.dateTime edt)
      hsd hed hmid

/-- Counterexample to C5 as stated: a timed remote event running from
midnight to midnight (start.dateTime present, so the event is timed) round
trips to an *all-day* event — its start boundary comes back with no
date-time — because the reverse mapper treats both-midnight date pairs as
all-day. -/
theorem mapEventRoundTrip_midnight_counterexample :
    midnightEvent.start.dateTime = some ⟨⟨2024, 1, 2⟩, 0, 0, 0⟩ ∧
    mapEventRoundTrip midnightEvent nowFix =
      .ok ⟨.str "Untitled Event", none, none,
        some ⟨none, some ⟨2024, 1, 2⟩⟩, some ⟨none, some ⟨2024, 1, 4⟩⟩⟩ := by
  exact ⟨rfl, rfl⟩

/-- Witness for the amended C5: a concrete all-day event and a concrete
09:00–09:30 timed event both round trip as claimed. -/
theorem mapEventRoundTrip_boundary_witness :
    (∃ p, mapEventRoundTrip
        ⟨"e1", "S", none, none, ⟨none, some ⟨2024, 1, 2⟩⟩,
         ⟨none, some ⟨2024, 1, 5⟩⟩, none, none, none⟩ nowFix = .ok p ∧
      p.start = some ⟨none, some ⟨2024, 1, 2⟩⟩ ∧
      p.stop = some ⟨none, some (addDaysD 1 ⟨2024, 1, 2⟩)⟩) ∧
    (∃ p, mapEventRoundTrip
        ⟨"e2", "S", none, none, ⟨some ⟨⟨2024, 1, 2⟩, 9, 0, 0⟩, none⟩,
         ⟨some ⟨⟨2024, 1, 2⟩, 9, 30, 0⟩, none⟩, none, none, none⟩ nowFix = .ok p ∧
      p.start = some ⟨some ⟨⟨2024, 1, 2⟩, 9, 0, 0⟩, none⟩ ∧
      p.stop = some ⟨some ⟨⟨2024, 1, 2⟩, 9, 30, 0⟩, none⟩) := by
  constructor
  · exact (mapEventRoundTrip_boundary
      ⟨"e1", "S", none, none, ⟨none, some ⟨2024, 1, 2⟩⟩,
       ⟨none, some ⟨2024, 1, 5⟩⟩, none, none, none⟩ nowFix).1
      ⟨2024, 1, 2⟩ rfl rfl
  · exact (mapEventRoundTrip_boundary
      ⟨"e2", "S", none, none, ⟨some ⟨⟨2024, 1, 2⟩, 9, 0, 0⟩, none⟩,
       ⟨some ⟨⟨2024, 1, 2⟩, 9, 30, 0⟩, none⟩, none, none, none⟩ nowFix).2
      ⟨⟨2024, 1, 2⟩, 9, 0, 0⟩ ⟨⟨2024, 1, 2⟩, 9, 30, 0⟩ rfl rfl
      (Or.inl (by decide))

/-- C10: a record whose `start-date` and `end-date` both parse to instants
with hour 0 and minute 0 — seconds are never examined — maps to an all-day
event with date-only boundaries, the end date incremented by one day, never
to a timed event. -/
theorem mapRecordToGoogleEvent_midnight_allday (r : DataRecord)
    (v1 v2 : DateVal)
    (h1 : r.get "start-date" = some (.dateStr v1))
    (h2 : r.get "end-date" = some (.dateStr v2))
    (hs0 : (dateValDt v1).h = 0) (hs1 : (dateValDt v1).mi = 0)
    (he0 : (dateValDt v2).h = 0) (he1 : (dateValDt v2).mi = 0) :
    ∃ p, mapRecordToGoogleEvent r = .ok p ∧
      p.start = some ⟨none, some (dateValDt v1).date⟩ ∧
      p.stop = some ⟨none, some (addDaysD 1 (dateValDt v2).date)⟩ := by
  have h1' : objGet r.values "start-date" = some (.dateStr v1) := h1
  have h2' : objGet r.values "end-date" = some (.dateStr v2) := h2
  unfold mapRecordToGoogleEvent
  dsimp only
  rw [h1', h2']
  simp only [otruthy, Value.truthy, Bool.and_self, if_true, safeDateParse_dateStr,
    exceptBind_ok, exceptPure_eq, Bool.or_eq_true, bne_iff_ne]
  split
  next hcond =>
    exact absurd hcond (by simp [hs0, hs1, he0, he1])
  next => exact ⟨_, rfl, rfl, rfl⟩

/-- A record storing full midnight date-times with non-zero seconds. -/
def recMidnightSeconds : DataRecord :=
  ⟨"m.md", [("start-date", .dateStr (.dateTime ⟨⟨2024, 1, 2⟩, 0, 0, 30⟩)),
            ("end-date", .dateStr (.dateTime ⟨⟨2024, 1, 3⟩, 0, 0, 45⟩))]⟩

/-- Witness for C10 at a record whose stored values are full date-time
strings denoting midnight (with non-zero seconds). -/
theorem mapRecordToGoogleEvent_midnight_allday_witness :
    ∃ p, mapRecordToGoogleEvent recMidnightSeconds = .ok p ∧
      p.start = some ⟨none, some ⟨2024, 1, 2⟩⟩ ∧
      p.stop = some ⟨none, some (addDaysD 1 ⟨2024, 1, 3⟩)⟩ :=
  mapRecordToGoogleEvent_midnight_allday recMidnightSeconds
    (.dateTime ⟨⟨2024, 1, 2⟩, 0, 0, 30⟩) (.dateTime ⟨⟨2024, 1, 3⟩, 0, 0, 45⟩)
    rfl rfl rfl rfl rfl rfl

/-- Witness for the amended C3 at a concrete DAILY rule with COUNT=3 and a
BYMONTH filter. -/
theorem parseRecurrenceRule_count_and_bymonth_witness :
    (parseRecurrenceRule "FREQ=DAILY;COUNT=3;BYMONTH=1" ⟨⟨2024, 1, 30⟩, 0, 0, 0⟩
        ⟨⟨2024, 1, 1⟩, 0, 0, 0⟩ ⟨⟨2024, 12, 31⟩, 0, 0, 0⟩).length ≤ 3 ∧
    (∀ d ∈ (parseRecurrenceRule "FREQ=DAILY;COUNT=3;BYMONTH=1"
        ⟨⟨2024, 1, 30⟩, 0, 0, 0⟩ ⟨⟨2024, 1, 1⟩, 0, 0, 0⟩
        ⟨⟨2024, 12, 31⟩, 0, 0, 0⟩).drop 1,
      byMonthOk (ruleCtx "FREQ=DAILY;COUNT=3;BYMONTH=1" ⟨⟨2024, 1, 1⟩, 0, 0, 0⟩
        ⟨⟨2024, 12, 31⟩, 0, 0, 0⟩).byMonth d = true) :=
  parseRecurrenceRule_count_and_bymonth "FREQ=DAILY;COUNT=3;BYMONTH=1"
    ⟨⟨2024, 1, 30⟩, 0, 0, 0⟩ ⟨⟨2024, 1, 1⟩, 0, 0, 0⟩ ⟨⟨2024, 12, 31⟩, 0, 0, 0⟩ 3
    (by decide) (by decide) (by decide)

end ArcaneSync
